import Mathlib

/-!
Verification of core flux-core components against their C sources:

* `src/common/libflux/message.c`, `message_private.c` — wire message
  encode/decode, flags, matchers (claims about round-trip, flag
  validation, matchtag matching).
* `src/broker/overlay.c` — tree-overlay routing, idle detection,
  monitor streaming RPC.
* `src/modules/scratchpad/scratchpad.c` — LL/SC broker-scope store.
* `src/modules/job-manager/housekeeping.c` — post-job housekeeping and
  partial release of resources.

Machine integers are modelled as `Nat` (with explicit `% 2 ^ 32` where
the C truncates), byte buffers as `List Nat` with values `< 256`,
reactor timestamps as `Int` (`struct child` stores them in `int`
fields).  Functions that can fail return `Option`/`Except` or pair the
unchanged state with an error code.
-/

namespace Flux

/-! ### Errno values (Linux) used by the modelled code -/

def EINVAL : Nat := 22
def EPROTO : Nat := 71
def EDEADLK : Nat := 35
def EROFS : Nat := 30
def ENODATA : Nat := 61
def EHOSTUNREACH : Nat := 113

/-! ### Message constants

`message.h` is not among the sources; the constants below are the wire
contract fixed by the spec (§6): flag bits TOPIC=0x01 .. NORESPONSE=0x40,
magic byte 0x8e, version 1, and four distinct 1-byte type codes used as a
bitmask by matchers (`type & typemask` in `flux_msg_cmp`). -/

def FLUX_MSGTYPE_REQUEST : Nat := 1
def FLUX_MSGTYPE_RESPONSE : Nat := 2
def FLUX_MSGTYPE_EVENT : Nat := 4
def FLUX_MSGTYPE_KEEPALIVE : Nat := 8

/-- Modelled from the spec: `FLUX_MSGTYPE_ANY` is the transient state used
only by `decode`; encoding a message still in ANY state is a protocol
error.  Its numeric value (the mask of all four type codes) is taken from
the matcher usage. -/
def FLUX_MSGTYPE_ANY : Nat := 15

def FLUX_MSGFLAG_TOPIC : Nat := 0x01
def FLUX_MSGFLAG_PAYLOAD : Nat := 0x02
def FLUX_MSGFLAG_ROUTE : Nat := 0x04
def FLUX_MSGFLAG_UPSTREAM : Nat := 0x08
def FLUX_MSGFLAG_PRIVATE : Nat := 0x10
def FLUX_MSGFLAG_STREAMING : Nat := 0x20
def FLUX_MSGFLAG_NORESPONSE : Nat := 0x40

/-- Modelled from the spec: sentinel values for nodeid/userid/matchtag
(`message.h` is not among the sources; the spec calls them "sentinel
ANY/UPSTREAM" and "sentinel unknown"). -/
def FLUX_NODEID_ANY : Nat := 0xffffffff

/-- Modelled from the spec: the "send upstream" nodeid sentinel. -/
def FLUX_NODEID_UPSTREAM : Nat := 0xfffffffe

/-- Modelled from the spec: the unknown-userid sentinel. -/
def FLUX_USERID_UNKNOWN : Nat := 0xffffffff

/-- Modelled from the spec: matchtag sentinel meaning "ignore". -/
def FLUX_MATCHTAG_NONE : Nat := 0

/-- Test a flag bit the way the C code does (`flags & FLAG`). -/
def hasFlag (flags fl : Nat) : Bool := flags &&& fl ≠ 0

/-! ### The message structure (struct flux_msg, message_private.h)

`aux1`/`aux2` are the two type-specific 32-bit words (nodeid/matchtag for
requests, errnum/matchtag for responses, sequence/unused for events,
errnum/status for keepalives).  `routes` holds the route stack with the
most recently pushed id at the head (`msg_route_push` uses `list_add`,
i.e. prepends).  Topic, payload and route ids are byte lists. -/

structure FluxMsg where
  typ : Nat
  flags : Nat
  userid : Nat
  rolemask : Nat
  aux1 : Nat
  aux2 : Nat
  topic : List Nat
  payload : List Nat
  routes : List (List Nat)
  deriving DecidableEq, Repr

/-! ### Wire encoding (flux_msg_encode / flux_msg_decode, message.c)

A frame is length-prefixed: 1-byte prefix when the length is < 0xff,
otherwise 0xff followed by the 32-bit big-endian length (`encode_frame`).
The length written through `htonl` is truncated to 32 bits. -/

/-- Big-endian bytes of `n % 2 ^ 32` (the `htonl` store). -/
def u32be (n : Nat) : List Nat :=
  [n / 2 ^ 24 % 256, n / 2 ^ 16 % 256, n / 2 ^ 8 % 256, n % 256]

/-- Reassemble a 32-bit big-endian value (the `ntohl` load). -/
def be32 (b0 b1 b2 b3 : Nat) : Nat :=
  ((b0 * 256 + b1) * 256 + b2) * 256 + b3

theorem be32_u32be (n : Nat) (h : n < 2 ^ 32) :
    be32 (n / 2 ^ 24 % 256) (n / 2 ^ 16 % 256) (n / 2 ^ 8 % 256) (n % 256) = n := by
  simp only [be32]
  omega

/-- Model of `encode_frame` from message.c: length prefix followed by the frame
bytes (the long form truncates the length through `htonl`). -/
def encode_frame (f : List Nat) : List Nat :=
  if f.length < 0xff then f.length :: f
  else 0xff :: (u32be f.length ++ f)

/-- Read one frame length from the head of the buffer: the 1-byte form,
or (prefix byte 0xff) the 4-byte big-endian form.  Returns the length and
the bytes that follow it. -/
def readLen (b : Nat) (rest : List Nat) : Option (Nat × List Nat) :=
  if b = 0xff then
    match rest with
    | b0 :: b1 :: b2 :: b3 :: rest2 => some (be32 b0 b1 b2 b3, rest2)
    | _ => none
  else some (b, rest)

theorem readLen_length {b : Nat} {rest : List Nat} {n : Nat} {rest2 : List Nat}
    (h : readLen b rest = some (n, rest2)) : rest2.length ≤ rest.length := by
  unfold readLen at h
  split at h
  · match rest, h with
    | b0 :: b1 :: b2 :: b3 :: r2, h =>
      simp only [Option.some.injEq, Prod.mk.injEq] at h
      rw [← h.2]
      simp only [List.length_cons]
      omega
  · simp only [Option.some.injEq, Prod.mk.injEq] at h
    simp [← h.2]

/-- The frame-splitting loop of `flux_msg_decode`: walk the buffer,
reading each length prefix and collecting each frame; fail if a frame
overruns the buffer. -/
def parseFrames : List Nat → Option (List (List Nat))
  | [] => some []
  | b :: rest =>
    match h : readLen b rest with
    | none => none
    | some (n, rest2) =>
      if rest2.length < n then none
      else
        match parseFrames (rest2.drop n) with
        | none => none
        | some fs => some (rest2.take n :: fs)
termination_by buf => buf.length
decreasing_by
  have := readLen_length h
  simp only [List.length_drop, List.length_cons]
  omega

theorem parseFrames_cons (b : Nat) (rest : List Nat) {n : Nat} {rest2 : List Nat}
    (h : readLen b rest = some (n, rest2)) (hn : ¬ rest2.length < n) :
    parseFrames (b :: rest) = (parseFrames (rest2.drop n)).map (rest2.take n :: ·) := by
  rw [parseFrames, h]
  simp only [hn, if_false]
  cases parseFrames (rest2.drop n) <;> rfl

theorem parseFrames_encode_frame (f rest : List Nat) (h : f.length < 2 ^ 32) :
    parseFrames (encode_frame f ++ rest) = (parseFrames rest).map (f :: ·) := by
  have hlen : ¬ (f ++ rest).length < f.length := by
    simp only [List.length_append]; omega
  by_cases hs : f.length < 0xff
  · rw [encode_frame, if_pos hs, List.cons_append]
    have hr : readLen f.length (f ++ rest) = some (f.length, f ++ rest) := by
      unfold readLen
      rw [if_neg (by omega : f.length ≠ 0xff)]
    rw [parseFrames_cons _ _ hr hlen, List.take_left, List.drop_left]
  · rw [encode_frame, if_neg hs, List.cons_append]
    simp only [u32be, List.append_assoc, List.cons_append, List.nil_append]
    have hr : readLen 0xff
        (f.length / 2 ^ 24 % 256 :: (f.length / 2 ^ 16 % 256 ::
          (f.length / 2 ^ 8 % 256 :: (f.length % 256 :: (f ++ rest)))))
        = some (f.length, f ++ rest) := by
      unfold readLen
      rw [if_pos rfl]
      show some (be32 (f.length / 2 ^ 24 % 256) (f.length / 2 ^ 16 % 256)
        (f.length / 2 ^ 8 % 256) (f.length % 256), f ++ rest) = _
      rw [be32_u32be f.length h]
    rw [parseFrames_cons _ _ hr hlen, List.take_left, List.drop_left]

theorem parseFrames_flatMap (fs : List (List Nat))
    (h : ∀ f ∈ fs, f.length < 2 ^ 32) :
    parseFrames (fs.flatMap encode_frame) = some fs := by
  induction fs with
  | nil => simp [parseFrames]
  | cons f tl ih =>
    rw [List.flatMap_cons]
    rw [parseFrames_encode_frame f _ (h f (by simp))]
    rw [ih (fun g hg => h g (by simp [hg]))]
    rfl

/-- Model of `msg_proto_setup` (message_private.c): the 20-byte PROTO frame —
magic 0x8e, version 1, type byte, flags byte, then userid, rolemask,
aux1, aux2 as 32-bit big-endian words. -/
def protoFrame (m : FluxMsg) : List Nat :=
  0x8e :: 1 :: m.typ :: m.flags ::
    (u32be m.userid ++ u32be m.rolemask ++ u32be m.aux1 ++ u32be m.aux2)

/-- The frame sequence emitted by `flux_msg_encode`: route frames then an
empty delimiter (only with the ROUTE flag), topic frame (TOPIC flag),
payload frame (PAYLOAD flag), and the mandatory PROTO frame last. -/
def msgFrames (m : FluxMsg) : List (List Nat) :=
  (if hasFlag m.flags FLUX_MSGFLAG_ROUTE then m.routes ++ [[]] else [])
  ++ (if hasFlag m.flags FLUX_MSGFLAG_TOPIC then [m.topic] else [])
  ++ (if hasFlag m.flags FLUX_MSGFLAG_PAYLOAD then [m.payload] else [])
  ++ [protoFrame m]

/-- Model of `flux_msg_encode` (message.c): emit every frame, length-prefixed, in
order; a message still in ANY state is a protocol error. -/
def flux_msg_encode (m : FluxMsg) : Except Nat (List Nat) :=
  if m.typ = FLUX_MSGTYPE_ANY then .error EPROTO
  else .ok ((msgFrames m).flatMap encode_frame)

/-- Split the leading route frames (with the ROUTE flag): everything up
to the first empty frame is a route id, the empty frame is the delimiter.
No delimiter means a framing error. -/
def splitRoutes (body : List (List Nat)) (fl : Nat) :
    Option (List (List Nat) × List (List Nat)) :=
  if hasFlag fl FLUX_MSGFLAG_ROUTE then
    match body.dropWhile (fun f => !f.isEmpty) with
    | [] => none
    | _ :: rest => some (body.takeWhile (fun f => !f.isEmpty), rest)
  else some ([], body)

/-- Take the next frame when `fl` has the given flag bit, else nothing. -/
def takeOptFrame (rest : List (List Nat)) (fl bit : Nat) :
    Option (List Nat × List (List Nat)) :=
  if hasFlag fl bit then
    match rest with
    | f :: rest2 => some (f, rest2)
    | [] => none
  else some ([], rest)

/-- Modelled from the spec: `iovec_to_msg` (message_iovec.c is not among
the sources).  The last frame is the PROTO frame (magic, version, a
concrete type code, flags byte, four 32-bit big-endian words); the frames
before it are, in order, route frames terminated by an empty delimiter
(only with the ROUTE flag), a topic frame (TOPIC flag) and a payload
frame (PAYLOAD flag), with nothing left over. -/
def iovec_to_msg (fs : List (List Nat)) : Option FluxMsg :=
  match fs.getLast? with
  | none => none
  | some proto =>
    match proto with
    | m0 :: v :: t :: fl ::
        [u0, u1, u2, u3, r0, r1, r2, r3, a0, a1, a2, a3, b0, b1, b2, b3] =>
      if m0 = 0x8e ∧ v = 1
          ∧ (t = FLUX_MSGTYPE_REQUEST ∨ t = FLUX_MSGTYPE_RESPONSE
             ∨ t = FLUX_MSGTYPE_EVENT ∨ t = FLUX_MSGTYPE_KEEPALIVE) then
        match splitRoutes fs.dropLast fl with
        | none => none
        | some (routes, rest) =>
          match takeOptFrame rest fl FLUX_MSGFLAG_TOPIC with
          | none => none
          | some (topic, rest2) =>
            match takeOptFrame rest2 fl FLUX_MSGFLAG_PAYLOAD with
            | none => none
            | some (payload, rest3) =>
              if rest3 = [] then
                some { typ := t, flags := fl,
                       userid := be32 u0 u1 u2 u3,
                       rolemask := be32 r0 r1 r2 r3,
                       aux1 := be32 a0 a1 a2 a3,
                       aux2 := be32 b0 b1 b2 b3,
                       topic := topic, payload := payload, routes := routes }
              else none
      else none
    | _ => none

/-- Model of `flux_msg_decode` (message.c): split the buffer into frames, then
assemble the message from the frame vector. -/
def flux_msg_decode (buf : List Nat) : Option FluxMsg :=
  match parseFrames buf with
  | none => none
  | some fs => iovec_to_msg fs

/-- A message the C implementation can actually hold: a concrete type
code; a flags byte; 32-bit words; topic and route ids are NUL-free C
strings (route ids nonempty, or they would collide with the route
delimiter frame); frame lengths fit the 32-bit length field.  Byte values
are below 256. -/
def wellFormed (m : FluxMsg) : Prop :=
  (m.typ = FLUX_MSGTYPE_REQUEST ∨ m.typ = FLUX_MSGTYPE_RESPONSE
    ∨ m.typ = FLUX_MSGTYPE_EVENT ∨ m.typ = FLUX_MSGTYPE_KEEPALIVE)
  ∧ m.flags < 256
  ∧ m.userid < 2 ^ 32 ∧ m.rolemask < 2 ^ 32
  ∧ m.aux1 < 2 ^ 32 ∧ m.aux2 < 2 ^ 32
  ∧ (¬ hasFlag m.flags FLUX_MSGFLAG_TOPIC → m.topic = [])
  ∧ (¬ hasFlag m.flags FLUX_MSGFLAG_PAYLOAD → m.payload = [])
  ∧ (¬ hasFlag m.flags FLUX_MSGFLAG_ROUTE → m.routes = [])
  ∧ (∀ b ∈ m.topic, 0 < b ∧ b < 256) ∧ m.topic.length < 2 ^ 32
  ∧ (∀ b ∈ m.payload, b < 256) ∧ m.payload.length < 2 ^ 32
  ∧ (∀ r ∈ m.routes, r ≠ [] ∧ r.length < 2 ^ 32 ∧ ∀ b ∈ r, 0 < b ∧ b < 256)

instance (m : FluxMsg) : Decidable (wellFormed m) := by
  unfold wellFormed; infer_instance

theorem protoFrame_length (m : FluxMsg) : (protoFrame m).length = 20 := by
  simp [protoFrame, u32be]

theorem routes_split (rs tail : List (List Nat)) (h : ∀ r ∈ rs, r ≠ []) :
    (rs ++ [] :: tail).takeWhile (fun f => !f.isEmpty) = rs
    ∧ (rs ++ [] :: tail).dropWhile (fun f => !f.isEmpty) = [] :: tail := by
  induction rs with
  | nil => simp [List.takeWhile, List.dropWhile]
  | cons r rs ih =>
    have hr : r.isEmpty = false := by
      cases r with
      | nil => exact absurd rfl (h [] (by simp))
      | cons a l => rfl
    have ih2 := ih (fun x hx => h x (by simp [hx]))
    simp only [List.cons_append, List.takeWhile_cons, List.dropWhile_cons, hr,
      Bool.not_false, if_true]
    exact ⟨by rw [ih2.1], by rw [ih2.2]⟩

theorem splitRoutes_route (rs tail : List (List Nat)) (fl : Nat)
    (hfl : hasFlag fl FLUX_MSGFLAG_ROUTE) (h : ∀ r ∈ rs, r ≠ []) :
    splitRoutes (rs ++ [] :: tail) fl = some (rs, tail) := by
  have hs := routes_split rs tail h
  rw [splitRoutes, if_pos hfl, hs.2, hs.1]

theorem splitRoutes_noroute (body : List (List Nat)) (fl : Nat)
    (hfl : ¬ hasFlag fl FLUX_MSGFLAG_ROUTE) :
    splitRoutes body fl = some ([], body) := by
  rw [splitRoutes, if_neg hfl]

theorem takeOptFrame_pos (f : List Nat) (rest : List (List Nat)) (fl bit : Nat)
    (h : hasFlag fl bit) : takeOptFrame (f :: rest) fl bit = some (f, rest) := by
  unfold takeOptFrame
  rw [if_pos h]

theorem takeOptFrame_neg (rest : List (List Nat)) (fl bit : Nat)
    (h : ¬ hasFlag fl bit) : takeOptFrame rest fl bit = some ([], rest) := by
  unfold takeOptFrame
  rw [if_neg h]

theorem msgFrames_length_bound (m : FluxMsg) (hm : wellFormed m) :
    ∀ f ∈ msgFrames m, f.length < 2 ^ 32 := by
  obtain ⟨ht, hfl, hu, hrm, ha1, ha2, ht0, hp0, hr0, htB, htL, hpB, hpL, hrB⟩ := hm
  intro f hf
  simp only [msgFrames, List.mem_append, List.mem_singleton] at hf
  rcases hf with ((hf | hf) | hf) | hf
  · split at hf
    · simp only [List.mem_append, List.mem_singleton] at hf
      rcases hf with hf | hf
      · exact (hrB f hf).2.1
      · simp [hf]
    · simp at hf
  · split at hf
    · simp only [List.mem_singleton] at hf
      subst hf; exact htL
    · simp at hf
  · split at hf
    · simp only [List.mem_singleton] at hf
      subst hf; exact hpL
    · simp at hf
  · subst hf
    rw [protoFrame_length]
    norm_num

/-- C5: for every legal message `m` (any concrete type, any flag
combination, with or without topic, payload and route stack), decoding
the buffer produced by encoding `m` yields a message equal to `m` in
every observable field (type, flags, userid, rolemask, the two
type-specific aux words, topic, payload bytes, and the route stack in
order). -/
theorem flux_msg_decode_encode (m : FluxMsg) (hm : wellFormed m)
    (bs : List Nat) (henc : flux_msg_encode m = .ok bs) :
    flux_msg_decode bs = some m := by
  have hbound := msgFrames_length_bound m hm
  obtain ⟨ht, hfl, hu, hrm, ha1, ha2, ht0, hp0, hr0, htB, htL, hpB, hpL, hrB⟩ := hm
  have htyp : m.typ ≠ FLUX_MSGTYPE_ANY := by
    rcases ht with h | h | h | h <;>
      simp [h, FLUX_MSGTYPE_ANY, FLUX_MSGTYPE_REQUEST, FLUX_MSGTYPE_RESPONSE,
        FLUX_MSGTYPE_EVENT, FLUX_MSGTYPE_KEEPALIVE]
  rw [flux_msg_encode, if_neg htyp] at henc
  simp only [Except.ok.injEq] at henc
  subst henc
  unfold flux_msg_decode
  rw [parseFrames_flatMap _ hbound]
  show iovec_to_msg (msgFrames m) = some m
  have hsplit : msgFrames m =
      ((if hasFlag m.flags FLUX_MSGFLAG_ROUTE then m.routes ++ [[]] else [])
        ++ ((if hasFlag m.flags FLUX_MSGFLAG_TOPIC then [m.topic] else [])
        ++ (if hasFlag m.flags FLUX_MSGFLAG_PAYLOAD then [m.payload] else [])))
      ++ [protoFrame m] := by
    simp [msgFrames, List.append_assoc]
  unfold iovec_to_msg
  rw [hsplit, List.getLast?_concat, List.dropLast_concat]
  simp only [protoFrame, u32be, List.cons_append, List.nil_append,
    List.append_assoc]
  rw [if_pos ⟨trivial, trivial, ht⟩]
  have hRoutes : splitRoutes
      ((if hasFlag m.flags FLUX_MSGFLAG_ROUTE then m.routes ++ [[]] else [])
        ++ ((if hasFlag m.flags FLUX_MSGFLAG_TOPIC then [m.topic] else [])
        ++ (if hasFlag m.flags FLUX_MSGFLAG_PAYLOAD then [m.payload] else [])))
      m.flags = some (m.routes,
        (if hasFlag m.flags FLUX_MSGFLAG_TOPIC then [m.topic] else [])
        ++ (if hasFlag m.flags FLUX_MSGFLAG_PAYLOAD then [m.payload] else [])) := by
    by_cases hR : hasFlag m.flags FLUX_MSGFLAG_ROUTE
    · rw [if_pos hR]
      rw [show m.routes ++ [[]]
          ++ ((if hasFlag m.flags FLUX_MSGFLAG_TOPIC then [m.topic] else [])
          ++ (if hasFlag m.flags FLUX_MSGFLAG_PAYLOAD then [m.payload] else []))
        = m.routes ++ ([] :: ((if hasFlag m.flags FLUX_MSGFLAG_TOPIC then [m.topic] else [])
          ++ (if hasFlag m.flags FLUX_MSGFLAG_PAYLOAD then [m.payload] else []))) by
        simp]
      exact splitRoutes_route _ _ _ hR (fun r hr => (hrB r hr).1)
    · rw [if_neg hR, List.nil_append, hr0 hR]
      exact splitRoutes_noroute _ _ hR
  have hTopic : takeOptFrame
      ((if hasFlag m.flags FLUX_MSGFLAG_TOPIC then [m.topic] else [])
        ++ (if hasFlag m.flags FLUX_MSGFLAG_PAYLOAD then [m.payload] else []))
      m.flags FLUX_MSGFLAG_TOPIC = some (m.topic,
        (if hasFlag m.flags FLUX_MSGFLAG_PAYLOAD then [m.payload] else [])) := by
    by_cases hT : hasFlag m.flags FLUX_MSGFLAG_TOPIC
    · rw [if_pos hT, List.singleton_append]
      exact takeOptFrame_pos _ _ _ _ hT
    · rw [if_neg hT, List.nil_append, ht0 hT]
      exact takeOptFrame_neg _ _ _ hT
  have hPayload : takeOptFrame
      (if hasFlag m.flags FLUX_MSGFLAG_PAYLOAD then [m.payload] else [])
      m.flags FLUX_MSGFLAG_PAYLOAD = some (m.payload, []) := by
    by_cases hP : hasFlag m.flags FLUX_MSGFLAG_PAYLOAD
    · rw [if_pos hP]
      exact takeOptFrame_pos _ _ _ _ hP
    · rw [if_neg hP, hp0 hP]
      exact takeOptFrame_neg _ _ _ hP
  simp only [hRoutes, hTopic, hPayload, if_true]
  rw [be32_u32be _ hu, be32_u32be _ hrm, be32_u32be _ ha1, be32_u32be _ ha2]

/-- A concrete REQUEST with topic "meep", a payload and two route hops,
used to witness the round-trip theorem. -/
def msgEx : FluxMsg :=
  { typ := FLUX_MSGTYPE_REQUEST
    flags := FLUX_MSGFLAG_TOPIC + FLUX_MSGFLAG_PAYLOAD + FLUX_MSGFLAG_ROUTE
    userid := 5
    rolemask := 1
    aux1 := 3
    aux2 := 42
    topic := [109, 101, 101, 112]
    payload := [1, 2, 3]
    routes := [[49], [48]] }

theorem flux_msg_decode_encode_witness :
    wellFormed msgEx
    ∧ flux_msg_decode ((msgFrames msgEx).flatMap encode_frame) = some msgEx :=
  ⟨by decide, flux_msg_decode_encode msgEx (by decide) _ rfl⟩

/-! ### Message mutators (message.c)

Each mutator takes the message and returns the message after the call
paired with the errno reported (`none` on success); a failing call
returns the message unchanged, as the C functions leave `*msg` untouched
when they fail. -/

/-- Model of `flux_msg_set_flags`: reject any bit outside the seven valid flags
(whose union TOPIC|PAYLOAD|ROUTE|UPSTREAM|PRIVATE|STREAMING|NORESPONSE
is 0x7f) and the STREAMING+NORESPONSE combination, else store the flag
byte. -/
def flux_msg_set_flags (m : FluxMsg) (fl : Nat) : FluxMsg × Option Nat :=
  if fl &&& 0x7f ≠ fl
      ∨ (hasFlag fl FLUX_MSGFLAG_STREAMING ∧ hasFlag fl FLUX_MSGFLAG_NORESPONSE) then
    (m, some EINVAL)
  else
    ({ m with flags := fl }, none)

/-- Model of `msg_setup_type`: per-type defaults on `set_type`/`create`. -/
def msg_setup_type (m : FluxMsg) : FluxMsg :=
  if m.typ = FLUX_MSGTYPE_REQUEST then
    { m with aux1 := FLUX_NODEID_ANY, aux2 := FLUX_MATCHTAG_NONE }
  else if m.typ = FLUX_MSGTYPE_RESPONSE then
    { m with aux1 := 0 }       -- errnum; matchtag not clobbered
  else if m.typ = FLUX_MSGTYPE_EVENT then
    { m with aux1 := 0, aux2 := 0 }
  else if m.typ = FLUX_MSGTYPE_KEEPALIVE then
    { m with aux1 := 0, aux2 := 0 }
  else m

/-- Model of `flux_msg_create`: new message with defaults per type (`none` when
the type code is invalid). -/
def flux_msg_create (typ : Nat) : Option FluxMsg :=
  if typ ≠ FLUX_MSGTYPE_REQUEST ∧ typ ≠ FLUX_MSGTYPE_RESPONSE
      ∧ typ ≠ FLUX_MSGTYPE_EVENT ∧ typ ≠ FLUX_MSGTYPE_KEEPALIVE
      ∧ typ ≠ FLUX_MSGTYPE_ANY then
    none
  else
    let m : FluxMsg :=
      { typ := typ, flags := 0, userid := FLUX_USERID_UNKNOWN, rolemask := 0,
        aux1 := 0, aux2 := 0, topic := [], payload := [], routes := [] }
    some (if typ ≠ FLUX_MSGTYPE_ANY then msg_setup_type m else m)

/-- Model of `flux_msg_set_type`: only a concrete type is accepted; per-type
defaults are applied. -/
def flux_msg_set_type (m : FluxMsg) (typ : Nat) : FluxMsg × Option Nat :=
  if typ ≠ FLUX_MSGTYPE_REQUEST ∧ typ ≠ FLUX_MSGTYPE_RESPONSE
      ∧ typ ≠ FLUX_MSGTYPE_EVENT ∧ typ ≠ FLUX_MSGTYPE_KEEPALIVE then
    (m, some EINVAL)
  else
    (msg_setup_type { m with typ := typ }, none)

/-- Model of `flux_msg_set_private`: OR the PRIVATE bit in via `set_flags`. -/
def flux_msg_set_private (m : FluxMsg) : FluxMsg × Option Nat :=
  flux_msg_set_flags m (m.flags ||| FLUX_MSGFLAG_PRIVATE)

/-- Model of `flux_msg_set_streaming`: clear NORESPONSE, set STREAMING. -/
def flux_msg_set_streaming (m : FluxMsg) : FluxMsg × Option Nat :=
  flux_msg_set_flags m ((m.flags &&& 0xbf) ||| FLUX_MSGFLAG_STREAMING)

/-- Model of `flux_msg_set_noresponse`: clear STREAMING, set NORESPONSE. -/
def flux_msg_set_noresponse (m : FluxMsg) : FluxMsg × Option Nat :=
  flux_msg_set_flags m ((m.flags &&& 0xdf) ||| FLUX_MSGFLAG_NORESPONSE)

def flux_msg_is_streaming (m : FluxMsg) : Bool :=
  hasFlag m.flags FLUX_MSGFLAG_STREAMING

def flux_msg_is_noresponse (m : FluxMsg) : Bool :=
  hasFlag m.flags FLUX_MSGFLAG_NORESPONSE

def flux_msg_set_userid (m : FluxMsg) (userid : Nat) : FluxMsg × Option Nat :=
  ({ m with userid := userid }, none)

def flux_msg_set_rolemask (m : FluxMsg) (rolemask : Nat) : FluxMsg × Option Nat :=
  ({ m with rolemask := rolemask }, none)

/-- Model of `flux_msg_set_nodeid`: requests only; the UPSTREAM sentinel must have
been resolved earlier. -/
def flux_msg_set_nodeid (m : FluxMsg) (nodeid : Nat) : FluxMsg × Option Nat :=
  if nodeid = FLUX_NODEID_UPSTREAM ∨ m.typ ≠ FLUX_MSGTYPE_REQUEST then
    (m, some EINVAL)
  else ({ m with aux1 := nodeid }, none)

def flux_msg_set_errnum (m : FluxMsg) (e : Nat) : FluxMsg × Option Nat :=
  if m.typ ≠ FLUX_MSGTYPE_RESPONSE ∧ m.typ ≠ FLUX_MSGTYPE_KEEPALIVE then
    (m, some EINVAL)
  else ({ m with aux1 := e }, none)

def flux_msg_set_seq (m : FluxMsg) (seq : Nat) : FluxMsg × Option Nat :=
  if m.typ ≠ FLUX_MSGTYPE_EVENT then (m, some EINVAL)
  else ({ m with aux1 := seq }, none)

def flux_msg_set_matchtag (m : FluxMsg) (t : Nat) : FluxMsg × Option Nat :=
  if m.typ ≠ FLUX_MSGTYPE_REQUEST ∧ m.typ ≠ FLUX_MSGTYPE_RESPONSE then
    (m, some EINVAL)
  else ({ m with aux2 := t }, none)

def flux_msg_set_status (m : FluxMsg) (s : Nat) : FluxMsg × Option Nat :=
  if m.typ ≠ FLUX_MSGTYPE_KEEPALIVE then (m, some EINVAL)
  else ({ m with aux2 := s }, none)

/-- Model of `flux_msg_set_topic`: replace, add (setting the TOPIC flag) or delete
(clearing it).  `none` stands for the NULL topic argument. -/
def flux_msg_set_topic (m : FluxMsg) : Option (List Nat) → FluxMsg × Option Nat
  | some t =>
    if hasFlag m.flags FLUX_MSGFLAG_TOPIC then ({ m with topic := t }, none)
    else flux_msg_set_flags { m with topic := t }
      (m.flags ||| FLUX_MSGFLAG_TOPIC)
  | none =>
    if hasFlag m.flags FLUX_MSGFLAG_TOPIC then
      flux_msg_set_flags { m with topic := [] }
        (m.flags &&& (0xff - FLUX_MSGFLAG_TOPIC))
    else (m, none)

/-- Model of `flux_msg_set_payload`: replace, add (setting the PAYLOAD flag) or
remove (clearing it).  `[]` stands for the NULL/empty buffer. -/
def flux_msg_set_payload (m : FluxMsg) (buf : List Nat) : FluxMsg × Option Nat :=
  if ¬ hasFlag m.flags FLUX_MSGFLAG_PAYLOAD ∧ buf = [] then (m, none)
  else if hasFlag m.flags FLUX_MSGFLAG_PAYLOAD ∧ buf ≠ [] then
    flux_msg_set_flags { m with payload := buf } m.flags
  else if ¬ hasFlag m.flags FLUX_MSGFLAG_PAYLOAD ∧ buf ≠ [] then
    flux_msg_set_flags { m with payload := buf }
      (m.flags ||| FLUX_MSGFLAG_PAYLOAD)
  else
    flux_msg_set_flags { m with payload := [] }
      (m.flags &&& (0xff - FLUX_MSGFLAG_PAYLOAD))

/-- Model of `flux_msg_route_enable`: no-op when ROUTE is already set. -/
def flux_msg_route_enable (m : FluxMsg) : FluxMsg :=
  if hasFlag m.flags FLUX_MSGFLAG_ROUTE then m
  else (flux_msg_set_flags m (m.flags ||| FLUX_MSGFLAG_ROUTE)).1

/-- Model of `flux_msg_route_disable`: clear the stack and the ROUTE flag. -/
def flux_msg_route_disable (m : FluxMsg) : FluxMsg :=
  if ¬ hasFlag m.flags FLUX_MSGFLAG_ROUTE then m
  else (flux_msg_set_flags { m with routes := [] }
    (m.flags &&& (0xff - FLUX_MSGFLAG_ROUTE))).1

/-- Model of `flux_msg_route_clear`: drop all route frames, keep the flag. -/
def flux_msg_route_clear (m : FluxMsg) : FluxMsg :=
  if ¬ hasFlag m.flags FLUX_MSGFLAG_ROUTE then m
  else { m with routes := [] }

/-- Model of `flux_msg_route_push`: prepend an id (EPROTO without ROUTE flag). -/
def flux_msg_route_push (m : FluxMsg) (id : List Nat) : FluxMsg × Option Nat :=
  if ¬ hasFlag m.flags FLUX_MSGFLAG_ROUTE then (m, some EPROTO)
  else ({ m with routes := id :: m.routes }, none)

/-- Model of `flux_msg_route_delete_last`: pop the front id if any. -/
def flux_msg_route_delete_last (m : FluxMsg) : FluxMsg × Option Nat :=
  if ¬ hasFlag m.flags FLUX_MSGFLAG_ROUTE then (m, some EPROTO)
  else ({ m with routes := m.routes.tail }, none)

/-- Model of `flux_msg_route_count`: `-1` (with errno EPROTO) without the ROUTE
flag, else the stack depth. -/
def flux_msg_route_count (m : FluxMsg) : Int :=
  if ¬ hasFlag m.flags FLUX_MSGFLAG_ROUTE then -1
  else (m.routes.length : Int)

/-- Messages reachable through `flux_msg_create` and the message.c
mutators (a failing mutator leaves the message as it was, so failures
need no extra constructors: the unchanged message is already `Built`). -/
inductive Built : FluxMsg → Prop
  | create (typ : Nat) (m : FluxMsg) : flux_msg_create typ = some m → Built m
  | set_type (m : FluxMsg) (typ : Nat) : Built m → Built (flux_msg_set_type m typ).1
  | set_flags (m : FluxMsg) (fl : Nat) : Built m → Built (flux_msg_set_flags m fl).1
  | set_private (m : FluxMsg) : Built m → Built (flux_msg_set_private m).1
  | set_streaming (m : FluxMsg) : Built m → Built (flux_msg_set_streaming m).1
  | set_noresponse (m : FluxMsg) : Built m → Built (flux_msg_set_noresponse m).1
  | set_userid (m : FluxMsg) (u : Nat) : Built m → Built (flux_msg_set_userid m u).1
  | set_rolemask (m : FluxMsg) (r : Nat) : Built m → Built (flux_msg_set_rolemask m r).1
  | set_nodeid (m : FluxMsg) (n : Nat) : Built m → Built (flux_msg_set_nodeid m n).1
  | set_errnum (m : FluxMsg) (e : Nat) : Built m → Built (flux_msg_set_errnum m e).1
  | set_seq (m : FluxMsg) (s : Nat) : Built m → Built (flux_msg_set_seq m s).1
  | set_matchtag (m : FluxMsg) (t : Nat) : Built m → Built (flux_msg_set_matchtag m t).1
  | set_status (m : FluxMsg) (s : Nat) : Built m → Built (flux_msg_set_status m s).1
  | set_topic (m : FluxMsg) (t : Option (List Nat)) :
      Built m → Built (flux_msg_set_topic m t).1
  | set_payload (m : FluxMsg) (buf : List Nat) :
      Built m → Built (flux_msg_set_payload m buf).1
  | route_enable (m : FluxMsg) : Built m → Built (flux_msg_route_enable m)
  | route_disable (m : FluxMsg) : Built m → Built (flux_msg_route_disable m)
  | route_clear (m : FluxMsg) : Built m → Built (flux_msg_route_clear m)
  | route_push (m : FluxMsg) (id : List Nat) :
      Built m → Built (flux_msg_route_push m id).1
  | route_delete_last (m : FluxMsg) :
      Built m → Built (flux_msg_route_delete_last m).1

/-- The STREAMING/NORESPONSE exclusion on a flag word. -/
def flagsExclusive (fl : Nat) : Prop :=
  ¬ (hasFlag fl FLUX_MSGFLAG_STREAMING ∧ hasFlag fl FLUX_MSGFLAG_NORESPONSE)

instance (fl : Nat) : Decidable (flagsExclusive fl) := by
  unfold flagsExclusive; infer_instance

theorem set_flags_exclusive (m : FluxMsg) (fl : Nat)
    (hm : flagsExclusive m.flags) :
    flagsExclusive (flux_msg_set_flags m fl).1.flags := by
  unfold flux_msg_set_flags
  split
  · exact hm
  · next h =>
    rw [not_or] at h
    exact h.2

theorem msg_setup_type_flags (m : FluxMsg) :
    (msg_setup_type m).flags = m.flags := by
  unfold msg_setup_type
  split
  · rfl
  · split
    · rfl
    · split
      · rfl
      · split
        · rfl
        · rfl

/-- C6: `flux_msg_set_flags` fails with EINVAL and leaves the message
unchanged whenever the requested flag set contains both STREAMING and
NORESPONSE or any bit outside the valid flag set; consequently no
message built through the message.c constructors and mutators ever
carries both STREAMING and NORESPONSE simultaneously. -/
theorem set_flags_validates (m : FluxMsg) (fl : Nat)
    (hbad : fl &&& 0x7f ≠ fl
      ∨ (hasFlag fl FLUX_MSGFLAG_STREAMING ∧ hasFlag fl FLUX_MSGFLAG_NORESPONSE)) :
    flux_msg_set_flags m fl = (m, some EINVAL)
    ∧ ∀ m', Built m' → flagsExclusive m'.flags := by
  constructor
  · unfold flux_msg_set_flags
    rw [if_pos hbad]
  · intro m' hb
    induction hb with
    | create typ m h =>
      unfold flux_msg_create at h
      split at h
      · exact absurd h (by simp)
      · simp only [Option.some.injEq] at h
        subst h
        split
        · rw [msg_setup_type_flags]
          exact (by decide : flagsExclusive (0 : Nat))
        · exact (by decide : flagsExclusive (0 : Nat))
    | set_type m typ hb ih =>
      unfold flux_msg_set_type
      split
      · exact ih
      · rw [msg_setup_type_flags]
        exact ih
    | set_flags m fl hb ih => exact set_flags_exclusive m fl ih
    | set_private m hb ih => exact set_flags_exclusive m _ ih
    | set_streaming m hb ih => exact set_flags_exclusive m _ ih
    | set_noresponse m hb ih => exact set_flags_exclusive m _ ih
    | set_userid m u hb ih => exact ih
    | set_rolemask m r hb ih => exact ih
    | set_nodeid m n hb ih =>
      unfold flux_msg_set_nodeid
      split
      · exact ih
      · exact ih
    | set_errnum m e hb ih =>
      unfold flux_msg_set_errnum
      split
      · exact ih
      · exact ih
    | set_seq m s hb ih =>
      unfold flux_msg_set_seq
      split
      · exact ih
      · exact ih
    | set_matchtag m t hb ih =>
      unfold flux_msg_set_matchtag
      split
      · exact ih
      · exact ih
    | set_status m s hb ih =>
      unfold flux_msg_set_status
      split
      · exact ih
      · exact ih
    | set_topic m t hb ih =>
      cases t with
      | some tp =>
        simp only [flux_msg_set_topic]
        by_cases hT : hasFlag m.flags FLUX_MSGFLAG_TOPIC
        · rw [if_pos hT]
          exact ih
        · rw [if_neg hT]
          exact set_flags_exclusive _ _ ih
      | none =>
        simp only [flux_msg_set_topic]
        by_cases hT : hasFlag m.flags FLUX_MSGFLAG_TOPIC
        · rw [if_pos hT]
          exact set_flags_exclusive _ _ ih
        · rw [if_neg hT]
          exact ih
    | set_payload m buf hb ih =>
      unfold flux_msg_set_payload
      split
      · exact ih
      · split
        · exact set_flags_exclusive _ _ ih
        · split
          · exact set_flags_exclusive _ _ ih
          · exact set_flags_exclusive _ _ ih
    | route_enable m hb ih =>
      unfold flux_msg_route_enable
      split
      · exact ih
      · exact set_flags_exclusive _ _ ih
    | route_disable m hb ih =>
      unfold flux_msg_route_disable
      split
      · exact ih
      · exact set_flags_exclusive _ _ ih
    | route_clear m hb ih =>
      unfold flux_msg_route_clear
      split
      · exact ih
      · exact ih
    | route_push m id hb ih =>
      unfold flux_msg_route_push
      split
      · exact ih
      · exact ih
    | route_delete_last m hb ih =>
      unfold flux_msg_route_delete_last
      split
      · exact ih
      · exact ih

/-- A concrete message used to witness the flag-validation theorem. -/
def msgReq : FluxMsg :=
  { typ := FLUX_MSGTYPE_REQUEST, flags := 0, userid := FLUX_USERID_UNKNOWN,
    rolemask := 0, aux1 := FLUX_NODEID_ANY, aux2 := 0,
    topic := [], payload := [], routes := [] }

theorem set_flags_validates_witness :
    ((0x60 : Nat) &&& 0x7f ≠ 0x60
      ∨ (hasFlag 0x60 FLUX_MSGFLAG_STREAMING ∧ hasFlag 0x60 FLUX_MSGFLAG_NORESPONSE))
    ∧ flux_msg_set_flags msgReq 0x60 = (msgReq, some EINVAL) :=
  ⟨by decide, (set_flags_validates msgReq 0x60 (by decide)).1⟩

/-! ### Matchers (flux_msg_cmp, message.c) -/

/-- Model of `flux_msg_get_matchtag`: requests and responses only (EPROTO
otherwise); the matchtag is the second aux word. -/
def flux_msg_get_matchtag (m : FluxMsg) : Option Nat :=
  if m.typ ≠ FLUX_MSGTYPE_REQUEST ∧ m.typ ≠ FLUX_MSGTYPE_RESPONSE then none
  else some m.aux2

/-- Model of `flux_msg_cmp_matchtag`: a message with a nonempty route stack never
matches (foreign matchtag domain); otherwise compare the stored tag. -/
def flux_msg_cmp_matchtag (m : FluxMsg) (matchtag : Nat) : Bool :=
  if flux_msg_route_count m > 0 then false
  else
    match flux_msg_get_matchtag m with
    | none => false
    | some tag => tag = matchtag

/-- Model of `struct flux_match`: typemask, matchtag, and a topic glob (`none`
models a NULL `topic_glob` pointer). -/
structure FluxMatch where
  typemask : Nat
  matchtag : Nat
  topic_glob : Option (List Nat)

/-- Model of `isa_matchany`: NULL, empty, or the sole character `*`. -/
def isa_matchany (s : Option (List Nat)) : Bool :=
  match s with
  | none => true
  | some [] => true
  | some [42] => true
  | some _ => false

/-- Model of `isa_glob`: the pattern contains `*`, `?` or `[`. -/
def isa_glob (s : List Nat) : Bool :=
  s.contains 42 || s.contains 63 || s.contains 91

/-- Model of libc `fnmatch` (not part of the sources): `*` matches any
run of bytes and `?` any single byte; other bytes (including `[`, whose
bracket sets the matcher here does not interpret) match literally. -/
def globMatch : List Nat → List Nat → Bool
  | [], [] => true
  | [], _ :: _ => false
  | 42 :: p, [] => globMatch p []
  | 42 :: p, c :: s => globMatch p (c :: s) || globMatch (42 :: p) s
  | 63 :: p, [] => false
  | 63 :: p, _ :: s => globMatch p s
  | a :: p, [] => false
  | a :: p, c :: s => a = c && globMatch p s
termination_by p s => (p.length, s.length)

/-- Model of `flux_msg_get_topic`: EPROTO without the TOPIC flag. -/
def flux_msg_get_topic (m : FluxMsg) : Option (List Nat) :=
  if ¬ hasFlag m.flags FLUX_MSGFLAG_TOPIC then none else some m.topic

/-- Model of `flux_msg_cmp`: typemask (0 matches all), then matchtag (NONE
matches all), then topic glob (literal compare unless it is a glob). -/
def flux_msg_cmp (m : FluxMsg) (mt : FluxMatch) : Bool :=
  if mt.typemask ≠ 0 ∧ (m.typ &&& mt.typemask) = 0 then false
  else if mt.matchtag ≠ FLUX_MATCHTAG_NONE ∧ ¬ flux_msg_cmp_matchtag m mt.matchtag then
    false
  else if ¬ isa_matchany mt.topic_glob then
    match flux_msg_get_topic m, mt.topic_glob with
    | none, _ => false
    | some topic, some pat =>
      if isa_glob pat then globMatch pat topic else pat = topic
    | some _, none => true
  else true

/-- C7: for every message and every matcher whose matchtag is not NONE,
the matcher never matches a message whose route stack is nonempty,
independent of the message's type, topic and matchtag value (matchtags
are a broker-local namespace). -/
theorem cmp_never_matches_routed (m : FluxMsg) (mt : FluxMatch)
    (hmt : mt.matchtag ≠ FLUX_MATCHTAG_NONE)
    (hroute : hasFlag m.flags FLUX_MSGFLAG_ROUTE)
    (hne : m.routes ≠ []) :
    flux_msg_cmp m mt = false := by
  have hcount : flux_msg_route_count m > 0 := by
    unfold flux_msg_route_count
    rw [if_neg (by simpa using hroute)]
    have : 0 < m.routes.length := List.length_pos.mpr hne
    exact_mod_cast this
  have hcmp : flux_msg_cmp_matchtag m mt.matchtag = false := by
    unfold flux_msg_cmp_matchtag
    rw [if_pos hcount]
  unfold flux_msg_cmp
  split
  · rfl
  · rw [if_pos ⟨hmt, by simp [hcmp]⟩]

/-- A routed response carrying a matchtag, and a matcher for that very
tag: the matcher still rejects it. -/
def msgRouted : FluxMsg :=
  { typ := FLUX_MSGTYPE_RESPONSE, flags := FLUX_MSGFLAG_ROUTE,
    userid := FLUX_USERID_UNKNOWN, rolemask := 0, aux1 := 0, aux2 := 7,
    topic := [], payload := [], routes := [[49]] }

theorem cmp_never_matches_routed_witness :
    (7 : Nat) ≠ FLUX_MATCHTAG_NONE
    ∧ flux_msg_cmp msgRouted ⟨0, 7, none⟩ = false :=
  ⟨by decide,
    cmp_never_matches_routed msgRouted ⟨0, 7, none⟩ (by decide) (by decide)
      (by decide)⟩

/-! ### Overlay router (overlay.c)

Reactor timestamps are modelled as `Int`: `struct child` stores
`lastseen` in an `int` field and `overlay_log_idle_children` computes
`int idle = now - child->lastseen`.

The route-stack calls in overlay.c (`flux_msg_push_route`,
`flux_msg_get_route_last`, `flux_msg_enable_route`,
`flux_msg_clear_route`, `flux_msg_pop_route`) are the older names of the
message.c route operations modelled above (`flux_msg_route_push`,
`flux_msg_route_last`, `flux_msg_route_enable`, `flux_msg_route_clear`,
`flux_msg_route_delete_last`). -/

def KEEPALIVE_STATUS_NORMAL : Nat := 0
def KEEPALIVE_STATUS_DISCONNECT : Nat := 1
def KEEPALIVE_STATUS_TEST_PAUSE : Nat := 2

def idle_min : Int := 5
def idle_max : Int := 30

/-- Model of `flux_msg_route_last` (old name `flux_msg_get_route_last`): the top
of the route stack, or NULL without the ROUTE flag or with an empty
stack. -/
def flux_msg_route_last (m : FluxMsg) : Option (List Nat) :=
  if ¬ hasFlag m.flags FLUX_MSGFLAG_ROUTE then none
  else m.routes.head?

/-- A broker (and child) uuid is its rank rendered in decimal
(`snprintf "%lu"` in `alloc_children` / `overlay_set_geometry`). -/
def uuidOf (r : Nat) : List Nat := (Nat.toDigits 10 r).map Char.toNat

/-- Per-child overlay state (struct child). -/
structure Child where
  rank : Nat
  lastseen : Int
  connected : Bool
  idle : Bool
  test_pause : Bool
  deriving DecidableEq, Repr

/-- The overlay state used by the routing, idle-scan and monitor
claims.  `parent_link`/`bind_link` model the presence of
`parent_zsock`/`bind_zsock`; `monitor_requests` holds an identifier per
pending streaming monitor request. -/
structure Overlay where
  size : Nat
  rank : Nat
  tbon_k : Nat
  parent_link : Bool
  parent_lastsent : Int
  bind_link : Bool
  children : List Child
  monitor_requests : List Nat
  test_backlog : Option (List FluxMsg)
  deriving DecidableEq, Repr

/-- The uuid of the parent rank, recorded by `overlay_set_geometry`
(`kary_parentof (k, rank) = (rank - 1) / k`). -/
def parentUuid (ov : Overlay) : List Nat := uuidOf ((ov.rank - 1) / ov.tbon_k)

/-- A transmission performed by the overlay. -/
inductive OvOut where
  | toParent (m : FluxMsg)
  | toChild (m : FluxMsg)
  deriving DecidableEq, Repr

inductive OverlayWhere where
  | any
  | upstream
  | downstream
  deriving DecidableEq, Repr

/-- Model of `overlay_sendmsg_parent`: EHOSTUNREACH without a parent socket;
append to the test backlog while paused; otherwise transmit and record
`parent_lastsent = now`. -/
def overlay_sendmsg_parent (ov : Overlay) (now : Int) (m : FluxMsg) :
    Except Nat (Overlay × List OvOut) :=
  if ¬ ov.parent_link then .error EHOSTUNREACH
  else
    match ov.test_backlog with
    | some bl => .ok ({ ov with test_backlog := some (bl ++ [m]) }, [])
    | none => .ok ({ ov with parent_lastsent := now }, [.toParent m])

/-- Model of `overlay_sendmsg_child`: EHOSTUNREACH without the bind socket. -/
def overlay_sendmsg_child (ov : Overlay) (m : FluxMsg) :
    Except Nat (List OvOut) :=
  if ¬ ov.bind_link then .error EHOSTUNREACH
  else .ok [.toChild m]

/-- Modelled from the spec: `kary_parentof` (libutil/kary.c is not among
the sources) — `parent(r) = (r - 1) / k` for `r > 0`, none for the
root. -/
def kary_parentof (k r : Nat) : Option Nat :=
  if r = 0 then none else some ((r - 1) / k)

/-- Walk up from `j` through its ancestors until one is a direct child
of `rank` (that ancestor is the next hop), or until the climb passes
`rank` (then `j` is not in the subtree).  The fuel argument (started at
`j`) keeps the recursion structural; the climbed-to rank strictly
decreases at each step, so the fuel never runs out before a decision. -/
def routeClimb (k rank : Nat) : Nat → Nat → Option Nat
  | _, 0 => none
  | 0, _ + 1 => none
  | fuel + 1, j + 1 =>
    if j / k = rank then some (j + 1)
    else if j / k ≤ rank then none
    else routeClimb k rank fuel (j / k)

/-- Modelled from the spec: `kary_child_route (k, size, rank, target)` —
the direct child of `rank` on the path to `target`, when `target` lies
in the subtree rooted at `rank` (none otherwise; kary.c is not among the
sources). -/
def kary_child_route (k size rank target : Nat) : Option Nat :=
  if target ≥ size ∨ target = rank then none
  else routeClimb k rank target target

/-- Model of `overlay_sendmsg`, REQUEST with `where = ANY`: resolve the direction
— upstream when the UPSTREAM flag is set and nodeid is our own rank;
downstream via the next-hop child when nodeid is in our subtree (the
copy gets our uuid, then the next hop, pushed onto its route stack);
upstream otherwise. -/
def request_resolve (ov : Overlay) (m : FluxMsg) :
    Except Nat (OverlayWhere × FluxMsg) :=
  if hasFlag m.flags FLUX_MSGFLAG_UPSTREAM ∧ m.aux1 = ov.rank then
    .ok (.upstream, m)
  else
    match kary_child_route ov.tbon_k ov.size ov.rank m.aux1 with
    | some route =>
      match flux_msg_route_push m (uuidOf ov.rank) with
      | (_, some e) => .error e
      | (m1, none) =>
        match flux_msg_route_push m1 (uuidOf route) with
        | (_, some e) => .error e
        | (m2, none) => .ok (.downstream, m2)
    | none => .ok (.upstream, m)

/-- Model of `overlay_mcast_child_one`: copy, enable the route stack, push the
child's uuid, send. -/
def overlay_mcast_child_one (ov : Overlay) (m : FluxMsg) (c : Child) :
    Except Nat (List OvOut) :=
  match flux_msg_route_push (flux_msg_route_enable m) (uuidOf c.rank) with
  | (_, some e) => .error e
  | (cpy, none) => overlay_sendmsg_child ov cpy

/-- Model of `overlay_mcast_child`: send a per-child copy to every connected
child; an EHOSTUNREACH send marks that child disconnected (other errors
are logged only). -/
def overlay_mcast_child (ov : Overlay) (m : FluxMsg) : Overlay × List OvOut :=
  let step := fun (c : Child) =>
    if c.connected then
      match overlay_mcast_child_one ov m c with
      | .error e => (if e = EHOSTUNREACH then { c with connected := false } else c,
          ([] : List OvOut))
      | .ok outs => (c, outs)
    else (c, [])
  ({ ov with children := ov.children.map (fun c => (step c).1) },
    ov.children.flatMap (fun c => (step c).2))

/-- Model of `overlay_sendmsg` (overlay.c): route a REQUEST, RESPONSE or EVENT
toward `where`, deriving the direction when `where = ANY`; EINVAL for
other types. -/
def overlay_sendmsg (ov : Overlay) (now : Int) (m : FluxMsg)
    (wh : OverlayWhere) : Except Nat (Overlay × List OvOut) :=
  if m.typ = FLUX_MSGTYPE_REQUEST then
    match (if wh = .any then request_resolve ov m else .ok (wh, m)) with
    | .error e => .error e
    | .ok (w, msg) =>
      if w = .upstream then overlay_sendmsg_parent ov now msg
      else
        match overlay_sendmsg_child ov msg with
        | .error e => .error e
        | .ok outs => .ok (ov, outs)
  else if m.typ = FLUX_MSGTYPE_RESPONSE then
    let w := if wh = .any then
        (if ov.rank > 0 ∧ flux_msg_route_last m = some (parentUuid ov) then
          OverlayWhere.upstream
        else OverlayWhere.downstream)
      else wh
    if w = .upstream then overlay_sendmsg_parent ov now m
    else
      match overlay_sendmsg_child ov m with
      | .error e => .error e
      | .ok outs => .ok (ov, outs)
  else if m.typ = FLUX_MSGTYPE_EVENT then
    if wh = .downstream ∨ wh = .any then .ok (overlay_mcast_child ov m)
    else
      overlay_sendmsg_parent ov now
        (if ¬ hasFlag m.flags FLUX_MSGFLAG_ROUTE then flux_msg_route_enable m
         else m)
  else .error EINVAL

/-! ### Idle detection and the monitor stream (overlay.c) -/

/-- The two human-readable reasons `overlay_log_idle_children` passes to
`monitor_update` ("idle for <duration>" / "no longer idle"). -/
inductive Reason where
  | idleFor
  | noLongerIdle
  deriving DecidableEq, Repr

/-- One iteration of the `overlay_log_idle_children` child loop:
disconnected children are skipped; a connected child becomes idle when
`now - lastseen ≥ idle_max` or its test_pause bit is set, and is marked
not idle otherwise; `monitor_update` fires only on a transition, with
the child state after the update. -/
def idleStepChild (now : Int) (c : Child) : Child × List (Child × Reason) :=
  if c.connected then
    if now - c.lastseen ≥ idle_max ∨ c.test_pause then
      if ¬ c.idle then
        (({ c with idle := true }), [({ c with idle := true }, Reason.idleFor)])
      else (c, [])
    else
      if c.idle then
        (({ c with idle := false }), [({ c with idle := false }, Reason.noLongerIdle)])
      else (c, [])
  else (c, [])

/-- The child loop of `overlay_log_idle_children`. -/
def scanChildren (now : Int) : List Child → List Child × List (Child × Reason)
  | [] => ([], [])
  | c :: cs =>
    let r := idleStepChild now c
    let rest := scanChildren now cs
    (r.1 :: rest.1, r.2 ++ rest.2)

/-- Model of `overlay_log_idle_children`: scan every child (guarded by the
static `idle_max > 0`); the returned list holds the `monitor_update`
invocations in order. -/
def overlay_log_idle_children (ov : Overlay) (now : Int) :
    Overlay × List (Child × Reason) :=
  if idle_max > 0 then
    let r := scanChildren now ov.children
    ({ ov with children := r.1 }, r.2)
  else (ov, [])

/-- The KEEPALIVE part of `child_cb`, receiving a keepalive with
`status` from the child whose uuid is `sender`'s rank: unknown peers are
dropped; otherwise `lastseen := now`, `connected` becomes false exactly
for DISCONNECT (the returned Bool reports the `overlay_monitor_notify`
on a connected-transition), the test_pause bit tracks TEST_PAUSE, and a
test_pause transition triggers an immediate idle rescan. -/
def child_cb_keepalive (ov : Overlay) (now : Int) (sender : Nat)
    (status : Nat) : Overlay × Bool × List (Child × Reason) :=
  match ov.children.find? (fun c => c.rank = sender) with
  | none => (ov, false, [])
  | some old =>
    let conn := status != KEEPALIVE_STATUS_DISCONNECT
    let tpause := status == KEEPALIVE_STATUS_TEST_PAUSE
    let notify := old.connected != conn
    let pauseChanged := old.test_pause != tpause
    let upd := { old with
      lastseen := now
      connected := conn
      test_pause := tpause }
    let ov1 := { ov with children := ov.children.map (fun c => if c.rank = sender then upd else c) }
    if pauseChanged then
      let r := overlay_log_idle_children ov1 now
      (r.1, notify, r.2)
    else (ov1, notify, [])

/-- A response sent on behalf of the monitor machinery. -/
inductive MonOut where
  | snapshot (dest : Nat) (entries : List (Nat × Bool × Bool))
  | errResp (dest : Nat) (errno : Nat)
  | update (dest : Nat) (rank : Nat) (connected idle : Bool) (reason : Reason)
  deriving DecidableEq, Repr

/-- The request a `MonOut` is addressed to. -/
def MonOut.dst : MonOut → Nat
  | .snapshot d _ => d
  | .errResp d _ => d
  | .update d _ _ _ _ => d

/-- Model of `monitor_update`: respond `{rank, connected, idle, reason}` to every
pending streaming monitor request. -/
def monitor_update_out (ov : Overlay) (c : Child) (reason : Reason) :
    List MonOut :=
  ov.monitor_requests.map (fun d => .update d c.rank c.connected c.idle reason)

/-- Model of `monitor_cb`: ENODATA when the topology has no children; otherwise
respond with the full `{rank, connected, idle}` snapshot and register
the request for updates only when it carries the STREAMING flag. -/
def monitor_cb (ov : Overlay) (dest : Nat) (flags : Nat) :
    Overlay × List MonOut :=
  if ov.children.length = 0 then (ov, [.errResp dest ENODATA])
  else
    let snap := ov.children.map (fun c => (c.rank, c.connected, c.idle))
    let ov2 :=
      if hasFlag flags FLUX_MSGFLAG_STREAMING then
        { ov with monitor_requests := ov.monitor_requests ++ [dest] }
      else ov
    (ov2, [.snapshot dest snap])

/-- Model of `stats_get_cb`: `{monitor-requests: <count>}`. -/
def overlay_stats_get (ov : Overlay) : Nat := ov.monitor_requests.length

/-- Model of `disconnect_cb`: purge the caller's pending monitor requests. -/
def overlay_disconnect (ov : Overlay) (dest : Nat) : Overlay :=
  { ov with monitor_requests := ov.monitor_requests.filter (fun d => d ≠ dest) }

theorem sendmsg_parent_nobacklog (ov : Overlay) (now : Int) (m : FluxMsg)
    (hbl : ov.test_backlog = none) :
    overlay_sendmsg_parent ov now m =
      (if ov.parent_link then
        .ok ({ ov with parent_lastsent := now }, [.toParent m])
      else .error EHOSTUNREACH) := by
  unfold overlay_sendmsg_parent
  by_cases hp : ov.parent_link
  · rw [if_neg (by simp [hp]), hbl, if_pos hp]
  · rw [if_pos (by simp [hp]), if_neg hp]

theorem sendmsg_child_link (ov : Overlay) (m : FluxMsg) :
    overlay_sendmsg_child ov m =
      (if ov.bind_link then .ok [.toChild m] else .error EHOSTUNREACH) := by
  unfold overlay_sendmsg_child
  by_cases hb : ov.bind_link
  · rw [if_neg (by simp [hb]), if_pos hb]
  · rw [if_pos (by simp [hb]), if_neg hb]

theorem overlay_sendmsg_request_resolved (ov : Overlay) (now : Int)
    (m : FluxMsg) (hreq : m.typ = FLUX_MSGTYPE_REQUEST)
    (w : OverlayWhere) (msg : FluxMsg)
    (hres : request_resolve ov m = .ok (w, msg)) :
    overlay_sendmsg ov now m .any =
      (if w = .upstream then overlay_sendmsg_parent ov now msg
       else
        match overlay_sendmsg_child ov msg with
        | .error e => .error e
        | .ok outs => .ok (ov, outs)) := by
  unfold overlay_sendmsg
  rw [if_pos hreq]
  rw [if_pos (rfl : OverlayWhere.any = OverlayWhere.any)]
  rw [hres]

/-- C8: for every REQUEST sent via `overlay_sendmsg` with `where = ANY`:
if the UPSTREAM flag is set and nodeid equals the local rank, the
message goes to the parent unmodified; otherwise, if nodeid lies in the
subtree rooted at the local rank (`kary_child_route` yields a next-hop
child), a copy is sent downstream with first the local rank's uuid and
then the next-hop child's uuid pushed on its route stack (the original
message itself is unmodified, the copy being a separate value); and
otherwise it goes to the parent.  Sending in a direction with no link
fails with EHOSTUNREACH. -/
theorem overlay_sendmsg_request_any (ov : Overlay) (now : Int) (m : FluxMsg)
    (hreq : m.typ = FLUX_MSGTYPE_REQUEST)
    (hbl : ov.test_backlog = none) :
    ((hasFlag m.flags FLUX_MSGFLAG_UPSTREAM ∧ m.aux1 = ov.rank) →
      overlay_sendmsg ov now m .any =
        (if ov.parent_link then
          .ok ({ ov with parent_lastsent := now }, [.toParent m])
        else .error EHOSTUNREACH))
    ∧ (¬ (hasFlag m.flags FLUX_MSGFLAG_UPSTREAM ∧ m.aux1 = ov.rank) →
        ∀ c, kary_child_route ov.tbon_k ov.size ov.rank m.aux1 = some c →
          hasFlag m.flags FLUX_MSGFLAG_ROUTE →
          overlay_sendmsg ov now m .any =
            (if ov.bind_link then
              .ok (ov,
                [.toChild { m with routes := uuidOf c :: uuidOf ov.rank :: m.routes }])
            else .error EHOSTUNREACH))
    ∧ (¬ (hasFlag m.flags FLUX_MSGFLAG_UPSTREAM ∧ m.aux1 = ov.rank) →
        kary_child_route ov.tbon_k ov.size ov.rank m.aux1 = none →
        overlay_sendmsg ov now m .any =
          (if ov.parent_link then
            .ok ({ ov with parent_lastsent := now }, [.toParent m])
          else .error EHOSTUNREACH)) := by
  refine ⟨fun hup => ?_, fun hnup c hroute hRf => ?_, fun hnup hroute => ?_⟩
  · have hres : request_resolve ov m = .ok (.upstream, m) := by
      unfold request_resolve
      rw [if_pos hup]
    rw [overlay_sendmsg_request_resolved ov now m hreq _ _ hres,
      if_pos rfl, sendmsg_parent_nobacklog ov now m hbl]
  · have hflag : ¬ ¬ hasFlag m.flags FLUX_MSGFLAG_ROUTE := by
      simpa using hRf
    have hpush1 : flux_msg_route_push m (uuidOf ov.rank) =
        ({ m with routes := uuidOf ov.rank :: m.routes }, none) := by
      unfold flux_msg_route_push
      rw [if_neg hflag]
    have hpush2 : flux_msg_route_push
        { m with routes := uuidOf ov.rank :: m.routes } (uuidOf c) =
        ({ m with routes := uuidOf c :: uuidOf ov.rank :: m.routes }, none) := by
      unfold flux_msg_route_push
      rw [if_neg hflag]
    have hres : request_resolve ov m =
        .ok (.downstream, { m with routes := uuidOf c :: uuidOf ov.rank :: m.routes }) := by
      unfold request_resolve
      rw [if_neg hnup]
      simp only [hroute, hpush1, hpush2]
    rw [overlay_sendmsg_request_resolved ov now m hreq _ _ hres,
      if_neg (by decide : ¬ (OverlayWhere.downstream = OverlayWhere.upstream)),
      sendmsg_child_link]
    by_cases hb : ov.bind_link
    · rw [if_pos hb, if_pos hb]
    · rw [if_neg hb, if_neg hb]
  · have hres : request_resolve ov m = .ok (.upstream, m) := by
      unfold request_resolve
      rw [if_neg hnup]
      simp only [hroute]
    rw [overlay_sendmsg_request_resolved ov now m hreq _ _ hres,
      if_pos rfl, sendmsg_parent_nobacklog ov now m hbl]

/-- A rank-1 broker of a size-7 binary tree with both links up, and a
routable REQUEST addressed to node 4 (a direct child of rank 1). -/
def ov8 : Overlay :=
  { size := 7, rank := 1, tbon_k := 2, parent_link := true,
    parent_lastsent := -1, bind_link := true,
    children := [⟨3, 0, false, false, false⟩, ⟨4, 0, false, false, false⟩],
    monitor_requests := [], test_backlog := none }

def msg8 : FluxMsg :=
  { typ := FLUX_MSGTYPE_REQUEST, flags := FLUX_MSGFLAG_ROUTE,
    userid := FLUX_USERID_UNKNOWN, rolemask := 0, aux1 := 4, aux2 := 0,
    topic := [], payload := [], routes := [] }

theorem overlay_sendmsg_request_any_witness :
    kary_child_route 2 7 1 4 = some 4
    ∧ overlay_sendmsg ov8 0 msg8 .any =
        (if ov8.bind_link then
          .ok (ov8,
            [.toChild { msg8 with routes := uuidOf 4 :: uuidOf 1 :: msg8.routes }])
        else .error EHOSTUNREACH) :=
  ⟨by decide,
    (overlay_sendmsg_request_any ov8 0 msg8 rfl rfl).2.1 (by decide) 4
      (by decide) (by decide)⟩

theorem scanChildren_eq (now : Int) (cs : List Child) :
    scanChildren now cs =
      (cs.map (fun c => (idleStepChild now c).1),
       cs.flatMap (fun c => (idleStepChild now c).2)) := by
  induction cs with
  | nil => rfl
  | cons c cs ih =>
    unfold scanChildren
    rw [ih]
    rfl

/-- C9 (amended): after an idle scan, every CONNECTED child's idle bit
is true iff `now - last_seen ≥ idle_max` or its test_pause bit is set;
disconnected children are skipped entirely, their idle bit (and every
other field) left unchanged; and a `monitor_update` notification with a
reason fires exactly on the transitions of the idle bit. -/
theorem overlay_idle_scan_spec (ov : Overlay) (now : Int) :
    ((overlay_log_idle_children ov now).1.children
        = ov.children.map (fun c => (idleStepChild now c).1)
      ∧ (overlay_log_idle_children ov now).2
        = ov.children.flatMap (fun c => (idleStepChild now c).2))
    ∧ ∀ c : Child,
        (c.connected →
          ((idleStepChild now c).1.idle = true
              ↔ (now - c.lastseen ≥ idle_max ∨ c.test_pause = true))
          ∧ (idleStepChild now c).1.connected = c.connected
          ∧ (idleStepChild now c).1.lastseen = c.lastseen
          ∧ (idleStepChild now c).1.test_pause = c.test_pause)
        ∧ (¬ c.connected → idleStepChild now c = (c, []))
        ∧ ((idleStepChild now c).2 = [] ↔ (idleStepChild now c).1.idle = c.idle)
        ∧ ((idleStepChild now c).1.idle ≠ c.idle →
            (idleStepChild now c).2
              = [((idleStepChild now c).1,
                  if c.idle then Reason.noLongerIdle else Reason.idleFor)]) := by
  constructor
  · unfold overlay_log_idle_children
    rw [if_pos (by decide : (0 : Int) < idle_max)]
    rw [scanChildren_eq]
    exact ⟨rfl, rfl⟩
  · intro c
    unfold idleStepChild
    by_cases hc : c.connected
    · rw [if_pos hc]
      by_cases hcond : now - c.lastseen ≥ idle_max ∨ c.test_pause = true
      · rw [if_pos (by simpa using hcond)]
        by_cases hidle : c.idle
        · rw [if_neg (by simpa using hidle)]
          refine ⟨fun _ => ⟨by simpa [hidle] using hcond, rfl, rfl, rfl⟩,
            fun h => absurd hc h, by simp, fun h => absurd rfl h⟩
        · rw [if_pos (by simpa using hidle)]
          refine ⟨fun _ => ⟨by simpa using hcond, rfl, rfl, rfl⟩,
            fun h => absurd hc h, ?_, ?_⟩
          · simp [Bool.not_eq_true] at hidle
            simp [hidle]
          · intro _
            simp [Bool.not_eq_true] at hidle
            simp [hidle]
      · rw [if_neg (by simpa using hcond)]
        by_cases hidle : c.idle
        · rw [if_pos hidle]
          refine ⟨fun _ => ⟨by simpa [hcond], rfl, rfl, rfl⟩,
            fun h => absurd hc h, by simp [hidle], ?_⟩
          intro _
          simp [hidle]
        · rw [if_neg hidle]
          refine ⟨fun _ => ⟨?_, rfl, rfl, rfl⟩, fun h => absurd hc h,
            by simp, fun h => absurd rfl h⟩
          simp [Bool.not_eq_true] at hidle
          simpa [hidle] using hcond
    · rw [if_neg hc]
      exact ⟨fun h => absurd h hc, fun _ => rfl, by simp,
        fun h => absurd rfl h⟩

/-- A single stale connected child (rank 1, last seen at time 0). -/
def ov9 : Overlay :=
  { size := 2, rank := 0, tbon_k := 2, parent_link := false,
    parent_lastsent := -1, bind_link := true,
    children := [⟨1, 0, true, false, false⟩],
    monitor_requests := [], test_backlog := none }

/-- C9 counterexample: scan at t=30 marks the child idle; a DISCONNECT
keepalive at t=31 clears `connected` but not `idle`; the scan at t=32
skips the disconnected child, leaving `idle = true` with
`connected = false` — the claimed biconditional "idle iff connected and
(stale or paused)" demands `idle = false` there. -/
theorem overlay_idle_scan_counterexample :
    (overlay_log_idle_children
        (child_cb_keepalive (overlay_log_idle_children ov9 30).1 31 1
          KEEPALIVE_STATUS_DISCONNECT).1 32).1.children
      = [⟨1, 31, false, true, false⟩] := by
  decide

theorem overlay_idle_scan_spec_witness :
    (⟨1, 0, true, false, false⟩ : Child).connected = true
    ∧ ((idleStepChild 30 ⟨1, 0, true, false, false⟩).1.idle = true
        ↔ ((30 : Int) - 0 ≥ idle_max ∨ false = true)) :=
  ⟨by decide,
    by
      have h := ((overlay_idle_scan_spec ov9 30).2
        ⟨1, 0, true, false, false⟩).1 (by decide)
      exact h.1⟩

/-- C10: an `overlay.monitor` request without the STREAMING flag gets
the one-shot snapshot listing every child's `{rank, connected, idle}`
but is not added to the pending monitor requests, so no subsequent
`monitor_update` response ever targets it; only STREAMING requests are
registered (and `overlay.stats.get` counts exactly the registered
requests). -/
theorem monitor_nonstreaming_oneshot (ov : Overlay) (dest : Nat) (flags : Nat)
    (hch : ov.children ≠ [])
    (hns : ¬ hasFlag flags FLUX_MSGFLAG_STREAMING) :
    monitor_cb ov dest flags
      = (ov, [.snapshot dest (ov.children.map (fun c => (c.rank, c.connected, c.idle)))])
    ∧ (∀ c reason, ∀ out ∈ monitor_update_out (monitor_cb ov dest flags).1 c reason,
        out.dst ∈ ov.monitor_requests)
    ∧ (dest ∉ ov.monitor_requests →
        ∀ c reason, ∀ out ∈ monitor_update_out (monitor_cb ov dest flags).1 c reason,
          out.dst ≠ dest)
    ∧ (∀ flags2, hasFlag flags2 FLUX_MSGFLAG_STREAMING →
        (monitor_cb ov dest flags2).1.monitor_requests
          = ov.monitor_requests ++ [dest])
    ∧ overlay_stats_get (monitor_cb ov dest flags).1
        = ov.monitor_requests.length := by
  have hn : ¬ ov.children.length = 0 := by
    simpa [List.length_eq_zero] using hch
  have hcb : monitor_cb ov dest flags
      = (ov, [.snapshot dest (ov.children.map (fun c => (c.rank, c.connected, c.idle)))]) := by
    unfold monitor_cb
    rw [if_neg hn, if_neg hns]
  refine ⟨hcb, ?_, ?_, ?_, ?_⟩
  · intro c reason out hout
    rw [hcb] at hout
    unfold monitor_update_out at hout
    obtain ⟨d, hd, hdo⟩ := List.mem_map.mp hout
    rw [← hdo]
    exact hd
  · intro hdest c reason out hout
    rw [hcb] at hout
    unfold monitor_update_out at hout
    obtain ⟨d, hd, hdo⟩ := List.mem_map.mp hout
    rw [← hdo]
    intro he
    rw [show (MonOut.update d c.rank c.connected c.idle reason).dst = d from rfl] at he
    exact hdest (he ▸ hd)
  · intro flags2 hs
    unfold monitor_cb
    rw [if_neg hn, if_pos hs]
  · rw [hcb]
    exact rfl

/-- A broker with one child and one registered monitor request (id 5);
request id 9 arrives without STREAMING. -/
def ov10 : Overlay :=
  { size := 2, rank := 0, tbon_k := 2, parent_link := false,
    parent_lastsent := -1, bind_link := true,
    children := [⟨1, 0, true, false, false⟩],
    monitor_requests := [5], test_backlog := none }

theorem monitor_nonstreaming_oneshot_witness :
    ov10.children ≠ []
    ∧ monitor_cb ov10 9 0
        = (ov10, [.snapshot 9 (ov10.children.map (fun c => (c.rank, c.connected, c.idle)))]) :=
  ⟨by decide, (monitor_nonstreaming_oneshot ov10 9 0 (by decide) (by decide)).1⟩

/-! ### Scratchpad (scratchpad.c)

The store is a JSON dictionary mapping each key to
`{"version": i, "data": o}`; a missing key behaves as
`{"version": 0, "data": null}`.  JSON values are modelled by `Jx`
(opaque payloads as `num`), the jansson object by an association list in
insertion order (`json_object_set_new` replaces in place or appends). -/

inductive Jx where
  | null
  | num (n : Int)
  | obj (kvs : List (String × Jx))

/-- Model of `json_object_set_new`: replace the entry in place, or append. -/
def setKey : List (String × Int × Jx) → String → Int × Jx →
    List (String × Int × Jx)
  | [], k, v => [(k, v.1, v.2)]
  | (k', v', d') :: rest, k, v =>
    if k' = k then (k, v.1, v.2) :: rest else (k', v', d') :: setKey rest k v

/-- Model of `json_object_get` / the `json_unpack` lookup. -/
def findKey : List (String × Int × Jx) → String → Option (Int × Jx)
  | [], _ => none
  | (k', v, d) :: rest, k => if k' = k then some (v, d) else findKey rest k

/-- Model of `json_object_del`: remove the key if present. -/
def delKey : List (String × Int × Jx) → String → List (String × Int × Jx)
  | [], _ => []
  | (k', v, d) :: rest, k =>
    if k' = k then rest else (k', v, d) :: delKey rest k

/-- struct scratchpad: the entries dictionary and `global_version`. -/
structure Scratchpad where
  data : List (String × Int × Jx)
  version : Int

/-- The whole pad rendered as the JSON dictionary `lookup` returns for
the reserved key. -/
def entriesJx (l : List (String × Int × Jx)) : Jx :=
  Jx.obj (l.map (fun e =>
    (e.1, Jx.obj [("version", Jx.num e.2.1), ("data", e.2.2)])))

/-- Model of `lookup` (scratchpad.c): key "." is the whole pad
(`{global_version, entries}`, or `{0, null}` when `version == 0`); a
missing key is `{0, null}`. -/
def lookup (ctx : Scratchpad) (key : String) : Int × Jx :=
  if key = "." then
    (ctx.version, if ctx.version = 0 then Jx.null else entriesJx ctx.data)
  else
    match findKey ctx.data key with
    | some (v, d) => (v, d)
    | none => (0, Jx.null)

/-- Model of `update` (scratchpad.c): key "." is read-only (EROFS); otherwise
store `{version, data}` under the key and bump `global_version`. -/
def update (ctx : Scratchpad) (key : String) (version : Int) (dat : Jx) :
    Except Nat Scratchpad :=
  if key = "." then .error EROFS
  else .ok { data := setKey ctx.data key (version, dat),
             version := ctx.version + 1 }

/-- Model of `sc_cb`: fail with EDEADLK unless the stored version equals the
request version, else `update` with `version + 1` and respond OK.  The
state is returned unchanged on failure. -/
def sc_cb (ctx : Scratchpad) (key : String) (version : Int) (dat : Jx) :
    Scratchpad × Option Nat :=
  if (lookup ctx key).1 ≠ version then (ctx, some EDEADLK)
  else
    match update ctx key (version + 1) dat with
    | .error e => (ctx, some e)
    | .ok ctx2 => (ctx2, none)

/-- Model of `ll_cb`: respond with the lookup result; the store is untouched. -/
def ll_cb (ctx : Scratchpad) (key : String) : Scratchpad × Int × Jx :=
  (ctx, lookup ctx key)

/-- Model of `delete_cb`: EPROTO without the NORESPONSE flag; else remove the key
if present and bump `global_version`. -/
def delete_cb (ctx : Scratchpad) (noresponse : Bool) (key : String) :
    Scratchpad × Option Nat :=
  if ¬ noresponse then (ctx, some EPROTO)
  else if (findKey ctx.data key).isSome then
    ({ data := delKey ctx.data key, version := ctx.version + 1 }, none)
  else (ctx, none)

/-- Model of `sc_stream_cb`: EINVAL without the STREAMING flag; apply the update
and finish with ENODATA when the version matches; otherwise park the
request (returned Bool) and respond with the current entry. -/
def sc_stream_cb (ctx : Scratchpad) (streaming : Bool) (key : String)
    (version : Int) (dat : Jx) :
    Scratchpad × Bool × Option Nat × Option (Int × Jx) :=
  if ¬ streaming then (ctx, false, some EINVAL, none)
  else if (lookup ctx key).1 = version then
    match update ctx key (version + 1) dat with
    | .error e => (ctx, false, some e, none)
    | .ok ctx2 => (ctx2, false, some ENODATA, none)
  else (ctx, true, none, some (lookup ctx key))

theorem findKey_setKey (l : List (String × Int × Jx)) (k : String)
    (v : Int × Jx) : findKey (setKey l k v) k = some v := by
  induction l with
  | nil => simp [setKey, findKey]
  | cons e rest ih =>
    obtain ⟨k', v', d'⟩ := e
    by_cases hk : k' = k
    · unfold setKey
      rw [if_pos hk]
      unfold findKey
      rw [if_pos rfl]
    · unfold setKey
      rw [if_neg hk]
      unfold findKey
      rw [if_neg hk]
      exact ih

/-- C3 (amended): a store-conditional on an ordinary key whose stored
version (0 for a missing key) differs from the request version fails
with EDEADLK leaving the pad untouched; with equal versions the entry
becomes `{version + 1, data}`, `global_version` grows by exactly one and
a success response is sent.  An sc on the reserved key "." changes
nothing and fails — with the read-only error when the request version
equals `global_version`, and with the deadlock error otherwise (the
version check precedes the read-only check). -/
theorem sc_cb_spec (ctx : Scratchpad) (key : String) (version : Int)
    (dat : Jx) :
    (key ≠ "." → (lookup ctx key).1 ≠ version →
      sc_cb ctx key version dat = (ctx, some EDEADLK))
    ∧ (key ≠ "." → (lookup ctx key).1 = version →
        (sc_cb ctx key version dat).2 = none
        ∧ (sc_cb ctx key version dat).1.version = ctx.version + 1
        ∧ lookup (sc_cb ctx key version dat).1 key = (version + 1, dat))
    ∧ (key = "." →
        sc_cb ctx key version dat
          = (ctx, some (if ctx.version = version then EROFS else EDEADLK))) := by
  refine ⟨fun hk hv => ?_, fun hk hv => ?_, fun hk => ?_⟩
  · unfold sc_cb
    rw [if_pos hv]
  · have hupd : update ctx key (version + 1) dat =
        .ok { data := setKey ctx.data key (version + 1, dat),
              version := ctx.version + 1 } := by
      unfold update
      rw [if_neg hk]
    have hsc : sc_cb ctx key version dat =
        ({ data := setKey ctx.data key (version + 1, dat),
           version := ctx.version + 1 }, none) := by
      unfold sc_cb
      rw [if_neg (by simpa using hv), hupd]
    refine ⟨by rw [hsc], by rw [hsc], ?_⟩
    rw [hsc]
    unfold lookup
    rw [if_neg hk, findKey_setKey]
  · subst hk
    have hlook : (lookup ctx ".").1 = ctx.version := by
      unfold lookup
      rw [if_pos rfl]
    by_cases hv : ctx.version = version
    · unfold sc_cb
      rw [if_neg (by rw [hlook]; simpa using hv)]
      unfold update
      rw [if_pos rfl, if_pos hv]
    · unfold sc_cb
      rw [if_pos (by rw [hlook]; exact hv), if_neg hv]

/-- C3 counterexample: on the empty pad, `sc {".", version 1}` fails
with the deadlock error, not the read-only error the claim names (the
version check fires first). -/
theorem sc_cb_dot_counterexample :
    sc_cb ⟨[], 0⟩ "." 1 (Jx.num 5) = (⟨[], 0⟩, some EDEADLK)
    ∧ EDEADLK ≠ EROFS :=
  ⟨rfl, by decide⟩

theorem sc_cb_spec_witness :
    ("x" : String) ≠ "."
    ∧ (lookup ⟨[], 0⟩ "x").1 = 0
    ∧ (sc_cb ⟨[], 0⟩ "x" 0 (Jx.num 1)).2 = none
    ∧ (sc_cb ⟨[], 0⟩ "x" 0 (Jx.num 1)).1.version = 0 + 1
    ∧ lookup (sc_cb ⟨[], 0⟩ "x" 0 (Jx.num 1)).1 "x" = (0 + 1, Jx.num 1) := by
  have h := (sc_cb_spec ⟨[], 0⟩ "x" 0 (Jx.num 1)).2.1 (by decide) rfl
  exact ⟨by decide, rfl, h.1, h.2.1, h.2.2⟩

/-- C4 (amended): a well-formed load-link never fails and leaves the
store unchanged: a missing key yields `{0, null}`, an existing key its
stored `{version, data}`, and the reserved key "." yields
`{global_version, entries}` whose data is null exactly when
`global_version` is 0 — not when the pad is empty: a pad emptied by
deletes keeps `global_version > 0` and yields the empty dictionary. -/
theorem ll_cb_spec (ctx : Scratchpad) (key : String) :
    (ll_cb ctx key).1 = ctx
    ∧ (key ≠ "." → findKey ctx.data key = none →
        (ll_cb ctx key).2 = (0, Jx.null))
    ∧ (key ≠ "." → ∀ v d, findKey ctx.data key = some (v, d) →
        (ll_cb ctx key).2 = (v, d))
    ∧ (key = "." →
        (ll_cb ctx key).2.1 = ctx.version
        ∧ ((ll_cb ctx key).2.2 = Jx.null ↔ ctx.version = 0)) := by
  refine ⟨rfl, fun hk hf => ?_, fun hk v d hf => ?_, fun hk => ?_⟩
  · show lookup ctx key = (0, Jx.null)
    unfold lookup
    rw [if_neg hk, hf]
  · show lookup ctx key = (v, d)
    unfold lookup
    rw [if_neg hk, hf]
  · subst hk
    have hl : lookup ctx "." =
        (ctx.version, if ctx.version = 0 then Jx.null else entriesJx ctx.data) := by
      unfold lookup
      rw [if_pos rfl]
    show (ctx, lookup ctx ".").2.1 = ctx.version
      ∧ ((ctx, lookup ctx ".").2.2 = Jx.null ↔ ctx.version = 0)
    rw [hl]
    refine ⟨rfl, ?_⟩
    by_cases hv : ctx.version = 0
    · rw [if_pos hv]
      simp [hv]
    · rw [if_neg hv]
      unfold entriesJx
      exact ⟨fun h => Jx.noConfusion h, fun h => absurd h hv⟩

/-- The pad after `sc x` then `delete x`: empty entries but
`global_version = 2`. -/
def padDrained : Scratchpad :=
  (delete_cb (sc_cb ⟨[], 0⟩ "x" 0 (Jx.num 1)).1 true "x").1

/-- C4 counterexample: the pad is empty, yet `ll "."` returns the empty
dictionary — not null, as the claim's "data null exactly when the pad is
empty" demands. -/
theorem ll_cb_dot_counterexample :
    padDrained.data = [] ∧ padDrained.version = 2
    ∧ (ll_cb padDrained ".").2.2 ≠ Jx.null :=
  ⟨rfl, rfl, fun h => Jx.noConfusion h⟩

theorem ll_cb_spec_witness :
    ("." : String) = "."
    ∧ (ll_cb padDrained ".").2.1 = padDrained.version
    ∧ ((ll_cb padDrained ".").2.2 = Jx.null ↔ padDrained.version = 0) := by
  have h := (ll_cb_spec padDrained ".").2.2.2 rfl
  exact ⟨rfl, h.1, h.2⟩

/-! ### Housekeeping (job-manager/housekeeping.c)

`struct rlist`/`struct idset` (librlist/libidset are not among the
sources) are modelled by the set of execution-target ranks they cover
(`Finset Nat`): the claims concern which ranks are freed, and an
allocation's R is diminished rank-wise (`rlist_copy_ranks` /
`rlist_remove_ranks`); `rlist_nnodes R = 0` iff its rank set is empty.
`alloc_send_free_request` (alloc.c is not among the sources) is
modelled as an emitted `FreeRequest` and is assumed to succeed, as is
`subprocess_rexec`; the C error paths for those calls only log.
`release_after` keeps the C sentinel: `-1` never (default), `0`
immediate, `> 0` delayed. -/

structure Allocation where
  id : Nat
  rl : Finset Nat
  pending : Finset Nat
  timer_armed : Bool
  timer_expired : Bool
  free_count : Nat
  deriving DecidableEq

structure FreeRequest where
  id : Nat
  ranks : Finset Nat
  deriving DecidableEq

/-- The slice of `struct job` housekeeping reads: id, the
FLUX_JOB_SYSTEM flag, and the ranks of `R_redacted`. -/
structure Job where
  id : Nat
  system : Bool
  R : Finset Nat
  deriving DecidableEq

/-- struct housekeeping: configuration, the per-rank in-flight script
set (`targets[rank].f != NULL`), and the allocation list. -/
structure Housekeeping where
  cmd : Bool
  release_after : Int
  size : Nat
  targets : Finset Nat
  allocations : List Allocation
  deriving DecidableEq

/-- Model of `get_housekept_ranks`: the ranks of R no longer pending. -/
def get_housekept_ranks (a : Allocation) : Finset Nat := a.rl \ a.pending

/-- Model of `allocation_release`: if any ranks have been housekept, send one
"free" request carrying exactly those ranks, subtract them from R and
count the release; otherwise do nothing. -/
def allocation_release (a : Allocation) : Option FreeRequest × Allocation :=
  if get_housekept_ranks a = ∅ then (none, a)
  else (some ⟨a.id, get_housekept_ranks a⟩,
    { a with rl := a.rl \ get_housekept_ranks a,
             free_count := a.free_count + 1 })

/-- Model of `allocation_timeout`: mark the timer expired, release the ranks
housekept so far, and retire the allocation once R is empty. -/
def allocation_timeout (a : Allocation) : Option Allocation × List FreeRequest :=
  let rel := allocation_release { a with timer_expired := true }
  (if rel.2.rl = ∅ then none else some rel.2, rel.1.toList)

/-- The release decision of `housekeeping_finish_one` after `r` was
cleared from pending: release immediately when pending emptied,
`release_after` is 0, or the timer already expired. -/
def finishAllocRel (ra : Int) (r : Nat) (a : Allocation) :
    Option FreeRequest × Allocation :=
  if (a.pending.erase r = ∅ ∨ ra = 0 ∨ a.timer_expired) then
    allocation_release { a with pending := a.pending.erase r }
  else (none, { a with pending := a.pending.erase r })

/-- Arm the one-shot release timer if not yet armed and
`release_after > 0`. -/
def armTimer (ra : Int) (a : Allocation) : Allocation :=
  if ¬ a.timer_armed ∧ ra > 0 then { a with timer_armed := true } else a

/-- One `housekeeping_finish_one` loop iteration on a single
allocation: clear `rank` from pending (skipping allocations that do not
hold it), decide the release, arm the timer on the first completion
when `release_after > 0`, and drop the allocation once R is empty. -/
def finishAlloc (ra : Int) (r : Nat) (a : Allocation) :
    Option Allocation × List FreeRequest :=
  if r ∈ a.pending then
    (if (armTimer ra (finishAllocRel ra r a).2).rl = ∅ then none
     else some (armTimer ra (finishAllocRel ra r a).2),
     (finishAllocRel ra r a).1.toList)
  else (some a, [])

/-- The allocation loop of `housekeeping_finish_one`. -/
def finishLoop (ra : Int) (r : Nat) :
    List Allocation → List Allocation × List FreeRequest
  | [] => ([], [])
  | a :: rest =>
    let res := finishAlloc ra r a
    let tail := finishLoop ra r rest
    (res.1.toList ++ tail.1, res.2 ++ tail.2)

/-- Model of `housekeeping_finish_one`: rank `r` completed housekeeping. -/
def housekeeping_finish_one (hk : Housekeeping) (r : Nat) :
    Housekeeping × List FreeRequest :=
  ({ hk with allocations := (finishLoop hk.release_after r hk.allocations).1 },
   (finishLoop hk.release_after r hk.allocations).2)

/-- Model of `housekeeping_start`: disabled (no command) short-circuits to an
immediate free of the full R; a FLUX_JOB_SYSTEM job returns success
with no free and no allocation; otherwise create the allocation
(pending = ranks of R), start the script on every pending rank not
already running one (`housekeeping_start_one` fails only for ranks
outside `[0, size)`, which are cleared from pending; the rexec itself
is modelled as started), and free the full R at once if nothing could
be started.  The sysjob `hack` call touches neither allocations nor
frees and is not modelled. -/
def housekeeping_start (hk : Housekeeping) (job : Job) :
    Housekeeping × List FreeRequest :=
  if ¬ hk.cmd then (hk, [⟨job.id, job.R⟩])
  else if job.system then (hk, [])
  else
    let pending2 := job.R.filter (fun r => r < hk.size)
    let targets2 := hk.targets ∪ pending2
    if pending2 = ∅ then ({ hk with targets := targets2 }, [⟨job.id, job.R⟩])
    else
      ({ hk with
          targets := targets2
          allocations := hk.allocations ++
            [{ id := job.id, rl := job.R, pending := pending2,
               timer_armed := false, timer_expired := false, free_count := 0 }] },
        [])

/-- A sequence of per-rank completions, accumulating the emitted
"free" requests in order. -/
def runFinishes (hk : Housekeeping) : List Nat → Housekeeping × List FreeRequest
  | [] => (hk, [])
  | r :: rs =>
    let s := housekeeping_finish_one hk r
    let t := runFinishes s.1 rs
    (t.1, s.2 ++ t.2)

/-- C1 (amended): with housekeeping configured, `housekeeping_start` on
a job carrying the FLUX_JOB_SYSTEM flag creates no Allocation and sends
no "free" request, returning success with the state untouched; the
immediate free of the full R happens only in the disabled
(no-command) case. -/
theorem housekeeping_start_system (hk : Housekeeping) (job : Job) :
    (hk.cmd = true → job.system = true →
      housekeeping_start hk job = (hk, []))
    ∧ (hk.cmd = false →
      housekeeping_start hk job = (hk, [⟨job.id, job.R⟩])) := by
  constructor
  · intro hcmd hsys
    unfold housekeeping_start
    rw [if_neg (by simp [hcmd]), if_pos hsys]
  · intro hcmd
    unfold housekeeping_start
    rw [if_pos (by simp [hcmd])]

/-- Housekeeping configured (cmd set, release-after unset), and a
SYSTEM-flagged job holding ranks {0, 1}. -/
def hkSys : Housekeeping :=
  { cmd := true, release_after := -1, size := 4, targets := ∅,
    allocations := [] }

def jobSys : Job := { id := 7, system := true, R := {0, 1} }

/-- C1 counterexample: with housekeeping configured and the SYSTEM flag
set, `housekeeping_start` emits no "free" request at all — in
particular none carrying the job's full R, contrary to the claim that
the resources are freed immediately as in the disabled case. -/
theorem housekeeping_start_system_counterexample :
    (housekeeping_start hkSys jobSys).2 = []
    ∧ ¬ ∃ fr ∈ (housekeeping_start hkSys jobSys).2, fr.ranks = jobSys.R := by
  refine ⟨rfl, ?_⟩
  intro ⟨fr, hmem, _⟩
  exact absurd hmem (List.not_mem_nil fr)

theorem housekeeping_start_system_witness :
    hkSys.cmd = true ∧ jobSys.system = true
    ∧ housekeeping_start hkSys jobSys = (hkSys, []) :=
  ⟨rfl, rfl, (housekeeping_start_system hkSys jobSys).1 rfl rfl⟩

theorem armTimer_rl (ra : Int) (a : Allocation) :
    (armTimer ra a).rl = a.rl := by
  unfold armTimer
  split <;> rfl

theorem armTimer_pending (ra : Int) (a : Allocation) :
    (armTimer ra a).pending = a.pending := by
  unfold armTimer
  split <;> rfl

theorem armTimer_free_count (ra : Int) (a : Allocation) :
    (armTimer ra a).free_count = a.free_count := by
  unfold armTimer
  split <;> rfl

theorem armTimer_armed (ra : Int) (a : Allocation) :
    ((armTimer ra a).timer_armed = true ↔ (a.timer_armed = true ∨ 0 < ra)) := by
  unfold armTimer
  split
  · next h =>
    exact ⟨fun _ => Or.inr h.2, fun _ => rfl⟩
  · next h =>
    rcases not_and_or.mp h with h1 | h2
    · simp [not_not.mp h1]
    · constructor
      · exact Or.inl
      · rintro (ha | hra)
        · exact ha
        · exact absurd hra h2

theorem finishLoop_eq (ra : Int) (r : Nat) (allocs : List Allocation) :
    finishLoop ra r allocs =
      (allocs.flatMap (fun a => (finishAlloc ra r a).1.toList),
       allocs.flatMap (fun a => (finishAlloc ra r a).2)) := by
  induction allocs with
  | nil => rfl
  | cons a rest ih =>
    unfold finishLoop
    rw [ih]
    rfl

theorem allocation_release_eq (a : Allocation)
    (hne : ¬ get_housekept_ranks a = ∅) :
    allocation_release a =
      (some ⟨a.id, get_housekept_ranks a⟩,
       { a with rl := a.rl \ get_housekept_ranks a,
                free_count := a.free_count + 1 }) := by
  unfold allocation_release
  rw [if_neg hne]

theorem finishAllocRel_cond (ra : Int) (r : Nat) (a : Allocation)
    (hsub : a.pending ⊆ a.rl) (hmem : r ∈ a.pending)
    (hcond : a.pending.erase r = ∅ ∨ ra = 0 ∨ a.timer_expired = true) :
    finishAllocRel ra r a =
      (some ⟨a.id, a.rl \ a.pending.erase r⟩,
       { a with pending := a.pending.erase r, rl := a.pending.erase r,
                free_count := a.free_count + 1 }) := by
  have hp2sub : a.pending.erase r ⊆ a.rl :=
    fun x hx => hsub (Finset.mem_of_mem_erase hx)
  have hrmem : r ∈ a.rl \ a.pending.erase r :=
    Finset.mem_sdiff.mpr ⟨hsub hmem, Finset.not_mem_erase r a.pending⟩
  have hne : ¬ (a.rl \ a.pending.erase r = ∅) := by
    intro h
    rw [h] at hrmem
    exact absurd hrmem (Finset.not_mem_empty r)
  unfold finishAllocRel
  rw [if_pos hcond]
  rw [allocation_release_eq { a with pending := a.pending.erase r }
    (by exact hne)]
  have heq : a.rl \ (a.rl \ a.pending.erase r) = a.pending.erase r := by
    rw [Finset.sdiff_sdiff_self_left]
    exact Finset.inter_eq_right.mpr hp2sub
  simp only [get_housekept_ranks, heq]

theorem finishAllocRel_ncond (ra : Int) (r : Nat) (a : Allocation)
    (hcond : ¬ (a.pending.erase r = ∅ ∨ ra = 0 ∨ a.timer_expired = true)) :
    finishAllocRel ra r a = (none, { a with pending := a.pending.erase r }) := by
  unfold finishAllocRel
  rw [if_neg hcond]

theorem finishAlloc_zero (idn n r : Nat) (s : Finset Nat) (hr : r ∉ s) :
    finishAlloc 0 r ⟨idn, insert r s, insert r s, false, false, n⟩ =
      ((if s = ∅ then none else some ⟨idn, s, s, false, false, n + 1⟩),
       [⟨idn, {r}⟩]) := by
  have hmem : r ∈ (⟨idn, insert r s, insert r s, false, false, n⟩ : Allocation).pending :=
    Finset.mem_insert_self r s
  have hcond : ((⟨idn, insert r s, insert r s, false, false, n⟩ : Allocation).pending.erase r = ∅
      ∨ (0 : Int) = 0
      ∨ (⟨idn, insert r s, insert r s, false, false, n⟩ : Allocation).timer_expired = true) :=
    Or.inr (Or.inl rfl)
  have hrel := finishAllocRel_cond 0 r ⟨idn, insert r s, insert r s, false, false, n⟩
    (by exact subset_rfl) hmem hcond
  have herase : (insert r s).erase r = s := Finset.erase_insert hr
  have hsd : insert r s \ s = {r} := by
    rw [Finset.insert_sdiff_of_not_mem s hr, Finset.sdiff_self,
      Finset.insert_empty]
  simp only [herase] at hrel
  unfold finishAlloc
  rw [if_pos hmem, hrel]
  simp only [hsd]
  have harm : armTimer 0 (⟨idn, s, s, false, false, n + 1⟩ : Allocation)
      = ⟨idn, s, s, false, false, n + 1⟩ := by
    unfold armTimer
    rw [if_neg (by simp)]
  rw [harm]
  rfl

/-- C2: when a housekeeping script completes on rank `r`, every
Allocation containing `r` in pending has `r` cleared, and the cleaned
ranks (ranks of R no longer pending) are released — one "free" request
carrying exactly them, those ranks subtracted from the Allocation's R,
`free_count` incremented — if and only if pending became empty, or
`release_after = 0`, or the timer already expired; the timer is armed on
the first completion when `release_after > 0`; and with
`release_after = 0` and N ranks, exactly N "free" requests are emitted
for the job, each carrying the single finishing rank, in the order the
ranks finish. -/
theorem housekeeping_finish_one_spec :
    (∀ (hk : Housekeeping) (r : Nat),
      housekeeping_finish_one hk r =
        ({ hk with allocations := hk.allocations.flatMap (fun a => (finishAlloc hk.release_after r a).1.toList) },
         hk.allocations.flatMap (fun a => (finishAlloc hk.release_after r a).2)))
    ∧ (∀ (ra : Int) (r : Nat) (a : Allocation),
        a.pending ⊆ a.rl → r ∈ a.pending →
        (((finishAlloc ra r a).2 ≠ [] ↔
            (a.pending.erase r = ∅ ∨ ra = 0 ∨ a.timer_expired = true))
          ∧ ((a.pending.erase r = ∅ ∨ ra = 0 ∨ a.timer_expired = true) →
              (finishAlloc ra r a).2 = [⟨a.id, a.rl \ a.pending.erase r⟩])
          ∧ ((finishAlloc ra r a).1 = none ↔ a.pending.erase r = ∅)
          ∧ (∀ a2, (finishAlloc ra r a).1 = some a2 →
              a2.pending = a.pending.erase r
              ∧ (a2.timer_armed = true ↔ (a.timer_armed = true ∨ 0 < ra))
              ∧ ((a.pending.erase r = ∅ ∨ ra = 0 ∨ a.timer_expired = true) →
                  a2.rl = a.pending.erase r
                  ∧ a2.free_count = a.free_count + 1)
              ∧ (¬ (a.pending.erase r = ∅ ∨ ra = 0 ∨ a.timer_expired = true) →
                  a2.rl = a.rl ∧ a2.free_count = a.free_count))))
    ∧ (∀ (idn n : Nat) (rs : List Nat) (hk : Housekeeping),
        rs.Nodup → hk.release_after = 0 →
        hk.allocations = [⟨idn, rs.toFinset, rs.toFinset, false, false, n⟩] →
        (runFinishes hk rs).2 = rs.map (fun r => ⟨idn, {r}⟩)) := by
  refine ⟨?_, ?_, ?_⟩
  · intro hk r
    unfold housekeeping_finish_one
    rw [finishLoop_eq]
  · intro ra r a hsub hmem
    have hrne : ¬ (a.rl = ∅) := by
      intro h
      have := hsub hmem
      rw [h] at this
      exact absurd this (Finset.not_mem_empty r)
    by_cases hcond : (a.pending.erase r = ∅ ∨ ra = 0 ∨ a.timer_expired = true)
    · have hrel := finishAllocRel_cond ra r a hsub hmem hcond
      unfold finishAlloc
      rw [if_pos hmem, hrel]
      refine ⟨⟨fun _ => hcond, fun _ => by simp⟩, fun _ => rfl, ?_, ?_⟩
      · rw [armTimer_rl]
        by_cases hp2 : a.pending.erase r = ∅
        · rw [if_pos (by exact hp2)]
          simp [hp2]
        · rw [if_neg (by exact hp2)]
          simp [hp2]
      · intro a2 ha2
        by_cases hp2 : a.pending.erase r = ∅
        · rw [armTimer_rl, if_pos (by exact hp2)] at ha2
          exact absurd ha2 (by simp)
        · rw [armTimer_rl, if_neg (by exact hp2)] at ha2
          have ha2' := (Option.some.injEq _ _).mp ha2
          subst ha2'
          refine ⟨by rw [armTimer_pending], ?_, fun _ => ⟨by rw [armTimer_rl], by rw [armTimer_free_count]⟩,
            fun h => absurd hcond h⟩
          rw [armTimer_armed]
    · have hrel := finishAllocRel_ncond ra r a hcond
      unfold finishAlloc
      rw [if_pos hmem, hrel]
      have hp2 : ¬ (a.pending.erase r = ∅) := fun h => hcond (Or.inl h)
      refine ⟨⟨fun h => absurd rfl h, fun h => absurd h hcond⟩,
        fun h => absurd h hcond, ?_, ?_⟩
      · rw [armTimer_rl]
        rw [if_neg (by exact hrne)]
        simp [hp2]
      · intro a2 ha2
        rw [armTimer_rl, if_neg (by exact hrne)] at ha2
        have ha2' := (Option.some.injEq _ _).mp ha2
        subst ha2'
        refine ⟨by rw [armTimer_pending], ?_, fun h => absurd h hcond,
          fun _ => ⟨by rw [armTimer_rl], by rw [armTimer_free_count]⟩⟩
        rw [armTimer_armed]
  · intro idn
    have main : ∀ (rs : List Nat), rs.Nodup → ∀ (hk : Housekeeping) (n : Nat),
        hk.release_after = 0 →
        hk.allocations = [⟨idn, rs.toFinset, rs.toFinset, false, false, n⟩] →
        (runFinishes hk rs).2 = rs.map (fun r => ⟨idn, {r}⟩) := by
      intro rs
      induction rs with
      | nil =>
        intro _ hk n _ _
        rfl
      | cons r rest ih =>
        intro hnd hk n hra halloc
        have hr : r ∉ rest := (List.nodup_cons.mp hnd).1
        have hndrest : rest.Nodup := (List.nodup_cons.mp hnd).2
        have hrf : r ∉ rest.toFinset := by simpa using hr
        have hfin := finishAlloc_zero idn n r rest.toFinset hrf
        have hstep : housekeeping_finish_one hk r =
            ({ hk with allocations := (if rest.toFinset = ∅ then [] else [⟨idn, rest.toFinset, rest.toFinset, false, false, n + 1⟩]) },
             [⟨idn, {r}⟩]) := by
          unfold housekeeping_finish_one
          rw [halloc, hra]
          unfold finishLoop
          rw [show (r :: rest).toFinset = insert r rest.toFinset from
            List.toFinset_cons, hfin]
          by_cases hre : rest.toFinset = ∅
          · rw [if_pos hre, if_pos hre]
            rfl
          · rw [if_neg hre, if_neg hre]
            rfl
        show (housekeeping_finish_one hk r).2
            ++ (runFinishes (housekeeping_finish_one hk r).1 rest).2
          = ⟨idn, {r}⟩ :: rest.map (fun x => ⟨idn, {x}⟩)
        rw [hstep]
        by_cases hre : rest.toFinset = ∅
        · have hrest : rest = [] := (List.toFinset_eq_empty_iff rest).mp hre
          subst hrest
          rfl
        · rw [if_neg hre] at hstep ⊢
          rw [ih hndrest
            { hk with allocations := [⟨idn, rest.toFinset, rest.toFinset, false, false, n + 1⟩] }
            (n + 1) hra rfl]
          rfl
    intro n rs hk hnd hra halloc
    exact main rs hnd hk n hra halloc

/-- Housekeeping with `release-after = "0"` and a single allocation for
job 3 over ranks {1, 2}. -/
def hkRun : Housekeeping :=
  { cmd := true, release_after := 0, size := 4, targets := ∅,
    allocations := [⟨3, ([1, 2] : List Nat).toFinset,
      ([1, 2] : List Nat).toFinset, false, false, 0⟩] }

theorem housekeeping_finish_one_spec_witness :
    ([1, 2] : List Nat).Nodup
    ∧ hkRun.release_after = 0
    ∧ (runFinishes hkRun [1, 2]).2 = [⟨3, {1}⟩, ⟨3, {2}⟩] :=
  ⟨by decide, rfl,
    housekeeping_finish_one_spec.2.2 3 0 [1, 2] hkRun (by decide) rfl rfl⟩

end Flux
